import Mathlib

/-!
# HTTP request parsing and response building

A shallow embedding of `request.hpp`, `response.hpp` and the connection handling of
`server.hpp`.

* A `std::string` is a list of characters, one per byte.
* `size_t` values are natural numbers taken modulo `2 ^ 64`; `npos` is the largest of them.
* Library calls that can throw (`substr`, `erase`) or that are undefined outside their
  precondition (`pop_back`) return in `Except Fault`.
* A `std::istringstream` is its unread characters together with `eofbit` and `failbit`.
* A `std::unordered_map<std::string, std::string>` is a list of entries with pairwise
  distinct keys.  The order of the list stands for the enumeration order of the container,
  which C++ leaves unspecified; no statement below depends on where a new key is placed.
* `while` loops run on a bound computed from the input length; running out of it is the
  fault `Fault.fuel`, which is proved never to happen.
* The socket is what its calls meet: the results of the successive calls of `recv`, and
  whether `send` returns or raises `SIGPIPE`, which ends the process.
-/

namespace WebServer

/-- A `std::string`: a sequence of bytes, each written as a character. -/
abbrev Str := List Char

/-- What can go wrong inside the string library, and the loop bound of the model. -/
inductive Fault where
  | out_of_range
  | undefined
  | fuel
  deriving DecidableEq

/-- Number of values of `size_t`. -/
def SIZE_MOD : Nat := 2 ^ 64

/-- The constant `std::string::npos`, that is `size_t(-1)`. -/
def npos : Nat := 2 ^ 64 - 1

/-- Addition of `size_t` values. -/
def sizeAdd (a b : Nat) : Nat := (a + b) % SIZE_MOD

/-! ## `std::string` members used by the parser -/

/-- The call `s.find(ch)`: index of the first `ch`, or `npos`. -/
def find (s : Str) (ch : Char) : Nat :=
  let i := (s.takeWhile (fun c => c != ch)).length
  if i < s.length then i else npos

/-- The call `s.find_first_not_of(set)`: index of the first character outside `set`, or `npos`. -/
def find_first_not_of (s : Str) (set : Str) : Nat :=
  let i := (s.takeWhile (fun c => set.contains c)).length
  if i < s.length then i else npos

/-- The call `s.find_last_not_of(set)`: index of the last character outside `set`, or `npos`. -/
def find_last_not_of (s : Str) (set : Str) : Nat :=
  let t := (s.reverse.takeWhile (fun c => set.contains c)).length
  if t < s.length then s.length - 1 - t else npos

/-- The call `s.substr(pos, n)`; throws `std::out_of_range` when `pos > s.size()`. -/
def substr (s : Str) (pos n : Nat) : Except Fault Str :=
  if pos > s.length then .error .out_of_range else .ok ((s.drop pos).take n)

/-- The call `s.erase(pos, n)`; throws `std::out_of_range` when `pos > s.size()`. -/
def erase (s : Str) (pos n : Nat) : Except Fault Str :=
  if pos > s.length then .error .out_of_range else .ok (s.take pos ++ (s.drop pos).drop n)

/-- The call `s.pop_back()`; undefined on the empty string. -/
def pop_back (s : Str) : Except Fault Str :=
  if s.isEmpty then .error .undefined else .ok s.dropLast

/-! ## Input streams -/

/-- A `std::istringstream`: the unread characters and the two state bits the parser can see. -/
structure IStream where
  buf : Str
  eofbit : Bool
  failbit : Bool
  deriving DecidableEq

/-- The stream `std::istringstream(s)`. -/
def IStream.ofString (s : Str) : IStream := ⟨s, false, false⟩

/-- The test `is.good()`. -/
def IStream.good (is : IStream) : Bool := !is.eofbit && !is.failbit

/-- The conversion of a stream to `bool`, that is `!is.fail()`. -/
def IStream.ok (is : IStream) : Bool := !is.failbit

/-- Characters extracted up to the delimiter, and what follows the delimiter when it was met. -/
def readUntil (delim : Char) : Str → Str × Option Str
  | [] => ([], none)
  | c :: cs =>
    if c = delim then ([], some cs)
    else ((c :: (readUntil delim cs).1), (readUntil delim cs).2)

/-- The call `std::getline(is, str)`: the new stream state and the new content of `str`.
A stream that is not good only gets `failbit` and `str` is left alone.  Otherwise `str` is
replaced by the characters up to the next line feed, which is consumed; on reaching the end
`eofbit` is set, and `failbit` too when nothing at all was extracted. -/
def getline (is : IStream) (str : Str) : IStream × Str :=
  if is.good then
    match readUntil '\n' is.buf with
    | (l, some rest) => ({ is with buf := rest }, l)
    | (l, none) => ({ buf := [], eofbit := true, failbit := l.isEmpty }, l)
  else ({ is with failbit := true }, str)

/-- The test `std::isspace` in the classic locale. -/
def isspace (c : Char) : Bool :=
  c = ' ' || c = '\t' || c = '\n' || c = '\x0b' || c = '\x0c' || c = '\r'

/-- The formatted extraction `is >> str` into a `std::string`: leading white space is skipped;
when the end is reached while skipping, `eofbit` and `failbit` are set and `str` is left alone;
otherwise `str` becomes the run of characters up to the next white space or the end. -/
def extractString (is : IStream) (str : Str) : IStream × Str :=
  if is.good then
    let b := is.buf.dropWhile isspace
    if b.isEmpty then ({ buf := [], eofbit := true, failbit := true }, str)
    else
      let rest := b.dropWhile (fun c => !isspace c)
      ({ buf := rest, eofbit := rest.isEmpty, failbit := false }, b.takeWhile (fun c => !isspace c))
  else ({ is with failbit := true }, str)

/-! ## Header maps -/

/-- The assignment `m[k] = v` on the entries of a map. -/
def assignEntries (k v : Str) : List (Str × Str) → List (Str × Str)
  | [] => [(k, v)]
  | e :: es => if e.1 = k then (k, v) :: es else e :: assignEntries k v es

/-- A `std::unordered_map<std::string, std::string>`. -/
structure HeaderMap where
  entries : List (Str × Str)
  nodup : (entries.map Prod.fst).Nodup

instance : DecidableEq HeaderMap := fun a b =>
  decidable_of_iff (a.entries = b.entries) (by cases a; cases b; simp)

/-- The empty map. -/
def HeaderMap.empty : HeaderMap := ⟨[], List.nodup_nil⟩

/-- The assignment `m[k] = v`. -/
def HeaderMap.assign (m : HeaderMap) (k v : Str) : HeaderMap :=
  ⟨assignEntries k v m.entries, by
    have keys : ∀ es : List (Str × Str), (assignEntries k v es).map Prod.fst =
        if k ∈ es.map Prod.fst then es.map Prod.fst else es.map Prod.fst ++ [k] := by
      intro es
      induction es with
      | nil => simp [assignEntries]
      | cons e es ih =>
        by_cases h : e.1 = k
        · simp [assignEntries, h]
        · have h2 : ¬ k = e.1 := fun h3 => h h3.symm
          simp only [assignEntries, h, if_false, List.map_cons, ih, List.mem_cons, h2, false_or]
          split <;> simp
    rw [keys]
    split
    · exact m.nodup
    · rename_i hk
      exact List.Nodup.append m.nodup (List.nodup_singleton k) (by simpa using hk)⟩

/-- The value stored under `k`, if any. -/
def HeaderMap.get? (m : HeaderMap) (k : Str) : Option Str := m.entries.lookup k

/-! ## `request.hpp` -/

/-- The enumeration `METHOD`. -/
inductive METHOD where
  | GET | POST | PUT | DELETE | PATCH | OPTIONS | HEAD | TRACE | CONNECT | UNKNOWN
  deriving DecidableEq

/-- The function `parseMethod`. -/
def parseMethod (method : Str) : METHOD :=
  if method = ['G', 'E', 'T'] then .GET
  else if method = ['P', 'O', 'S', 'T'] then .POST
  else if method = ['P', 'U', 'T'] then .PUT
  else if method = ['D', 'E', 'L', 'E', 'T', 'E'] then .DELETE
  else if method = ['P', 'A', 'T', 'C', 'H'] then .PATCH
  else if method = ['O', 'P', 'T', 'I', 'O', 'N', 'S'] then .OPTIONS
  else if method = ['H', 'E', 'A', 'D'] then .HEAD
  else if method = ['T', 'R', 'A', 'C', 'E'] then .TRACE
  else if method = ['C', 'O', 'N', 'N', 'E', 'C', 'T'] then .CONNECT
  else .UNKNOWN

/-- The data members of `class Request`. -/
structure Request where
  method : METHOD
  uri : Str
  headers : HeaderMap
  body : Str
  deriving DecidableEq

/-- The default constructor `Request::Request()`. -/
def Request.default : Request := ⟨.UNKNOWN, [], HeaderMap.empty, []⟩

/-- The members as `Request::Request(const std::string&)` has them when it calls `parse`:
the strings and the map are default-constructed, and `method`, which has no initializer,
holds whatever value `garbage` its storage held. -/
def Request.uninitialized (garbage : METHOD) : Request := ⟨garbage, [], HeaderMap.empty, []⟩

/-- The body of the header loop of `Request::parse` for one line. -/
def Request.parseHeaderLine (headers : HeaderMap) (line : Str) : Except Fault HeaderMap :=
  let colon := find line ':'
  if colon ≠ npos then do
    let headerKey ← substr line 0 colon
    let headerValue ← substr line (sizeAdd colon 1) npos
    let headerValue ← erase headerValue 0 (find_first_not_of headerValue [' ', '\t'])
    let headerValue ← erase headerValue (sizeAdd (find_last_not_of headerValue [' ', '\t']) 1) npos
    pure (headers.assign headerKey headerValue)
  else pure headers

/-- The loop `while (std::getline(stream, line) && line != "\r")` of `Request::parse`. -/
def Request.headerLoop : Nat → IStream → Str → HeaderMap → Except Fault (IStream × Str × HeaderMap)
  | 0, _, _, _ => .error .fuel
  | fuel + 1, stream, line, headers =>
    let g := getline stream line
    if g.1.ok && g.2 ≠ ['\r'] then do
      let headers ← Request.parseHeaderLine headers g.2
      Request.headerLoop fuel g.1 g.2 headers
    else pure (g.1, g.2, headers)

/-- The loop `while (std::getline(stream, bodyLine))` of `Request::parse`. -/
def Request.bodyLoop : Nat → IStream → Str → Str → Except Fault (IStream × Str × Str)
  | 0, _, _, _ => .error .fuel
  | fuel + 1, stream, bodyLine, body =>
    let g := getline stream bodyLine
    if g.1.ok then Request.bodyLoop fuel g.1 g.2 (body ++ (g.2 ++ ['\n']))
    else pure (g.1, g.2, body)

/-- The request line of `Request::parse`: three formatted extractions from the first line. -/
def Request.parseRequestLine (r : Request) (line : Str) : Request :=
  let requestLine := IStream.ofString line
  let m := extractString requestLine []
  let u := extractString m.1 []
  let _v := extractString u.1 []
  { r with method := parseMethod m.2, uri := u.2 }

/-- The member function `Request::parse`, acting on the members `r`. -/
def Request.parse (r : Request) (rawRequest : Str) : Except Fault Request := do
  let stream := IStream.ofString rawRequest
  let g := getline stream []
  let r := if g.1.ok then Request.parseRequestLine r g.2 else r
  let h ← Request.headerLoop (rawRequest.length + 2) g.1 g.2 r.headers
  let b ← Request.bodyLoop (rawRequest.length + 2) h.1 [] r.body
  let body ← if !b.2.2.isEmpty then pop_back b.2.2 else pure b.2.2
  pure { r with headers := h.2.2, body := body }

/-- The constructor `Request::Request(const std::string& rawRequest)`. -/
def Request.ofRaw (garbage : METHOD) (rawRequest : Str) : Except Fault Request :=
  Request.parse (Request.uninitialized garbage) rawRequest

/-! ## `response.hpp` -/

/-- The text `std::to_string(n)` or `os << n` of an unsigned value: its decimal digits. -/
def decimal (n : Nat) : Str := (Nat.repr n).toList

/-- The text `os << i` of an `int`: decimal digits, with a minus sign when negative. -/
def decimalInt : Int → Str
  | Int.ofNat n => decimal n
  | Int.negSucc n => '-' :: decimal (n + 1)

/-- The insertion `os << s` into a `std::ostringstream`, which is the text written so far. -/
def put (os : Str) (s : Str) : Str := os ++ s

/-- The call `s.ends_with(suffix)`. -/
def ends_with (s suffix : Str) : Bool := suffix.isSuffixOf s

/-- The files as `std::ifstream` sees them: the bytes read from a path that opens for
reading, `none` for a path that does not open. -/
abbrev FileSystem := Str → Option Str

/-- The data members of `class Response`. -/
structure Response where
  statusCode : Int
  statusMessage : Str
  headers : HeaderMap
  body : Str
  deriving DecidableEq

/-- The constructor `Response::Response()`. -/
def Response.default : Response := ⟨200, "OK".toList, HeaderMap.empty, []⟩

/-- The member function `Response::getStatusMessage`. -/
def Response.getStatusMessage (code : Int) : Str :=
  if code = 100 then "Continue".toList
  else if code = 101 then "Switching Protocols".toList
  else if code = 102 then "Processing".toList
  else if code = 103 then "Early Hints".toList
  else if code = 200 then "OK".toList
  else if code = 201 then "Created".toList
  else if code = 202 then "Accepted".toList
  else if code = 203 then "Non-Authoritative Information".toList
  else if code = 204 then "No Content".toList
  else if code = 205 then "Reset Content".toList
  else if code = 206 then "Partial Content".toList
  else if code = 207 then "Multi-Status".toList
  else if code = 208 then "Already Reported".toList
  else if code = 226 then "IM Used".toList
  else if code = 300 then "Multiple Choices".toList
  else if code = 301 then "Moved Permanently".toList
  else if code = 302 then "Found".toList
  else if code = 303 then "See Other".toList
  else if code = 304 then "Not Modified".toList
  else if code = 305 then "Use Proxy".toList
  else if code = 307 then "Temporary Redirect".toList
  else if code = 308 then "Permanent Redirect".toList
  else if code = 400 then "Bad Request".toList
  else if code = 401 then "Unauthorized".toList
  else if code = 402 then "Payment Required".toList
  else if code = 403 then "Forbidden".toList
  else if code = 404 then "Not Found".toList
  else if code = 405 then "Method Not Allowed".toList
  else if code = 406 then "Not Acceptable".toList
  else if code = 407 then "Proxy Authentication Required".toList
  else if code = 408 then "Request Timeout".toList
  else if code = 409 then "Conflict".toList
  else if code = 410 then "Gone".toList
  else if code = 411 then "Length Required".toList
  else if code = 412 then "Precondition Failed".toList
  else if code = 413 then "Payload Too Large".toList
  else if code = 414 then "URI Too Long".toList
  else if code = 415 then "Unsupported Media Type".toList
  else if code = 416 then "Range Not Satisfiable".toList
  else if code = 417 then "Expectation Failed".toList
  else if code = 418 then "I'm a teapot".toList
  else if code = 421 then "Misdirected Request".toList
  else if code = 422 then "Unprocessable Entity".toList
  else if code = 423 then "Locked".toList
  else if code = 424 then "Failed Dependency".toList
  else if code = 425 then "Too Early".toList
  else if code = 426 then "Upgrade Required".toList
  else if code = 428 then "Precondition Required".toList
  else if code = 429 then "Too Many Requests".toList
  else if code = 431 then "Request Header Fields Too Large".toList
  else if code = 451 then "Unavailable For Legal Reasons".toList
  else if code = 500 then "Internal Server Error".toList
  else if code = 501 then "Not Implemented".toList
  else if code = 502 then "Bad Gateway".toList
  else if code = 503 then "Service Unavailable".toList
  else if code = 504 then "Gateway Timeout".toList
  else if code = 505 then "HTTP Version Not Supported".toList
  else if code = 506 then "Variant Also Negotiates".toList
  else if code = 507 then "Insufficient Storage".toList
  else if code = 508 then "Loop Detected".toList
  else if code = 510 then "Not Extended".toList
  else if code = 511 then "Network Authentication Required".toList
  else "Unknown Status".toList

/-- The member function `Response::setStatusCode`. -/
def Response.setStatusCode (r : Response) (code : Int) : Response :=
  { r with statusCode := code, statusMessage := Response.getStatusMessage code }

/-- The member function `Response::addHeader`. -/
def Response.addHeader (r : Response) (key value : Str) : Response :=
  { r with headers := r.headers.assign key value }

/-- The member function `Response::setBody`. -/
def Response.setBody (r : Response) (responseBody : Str) : Response :=
  { r with body := responseBody }

/-- The content type chosen by `Response::sendFile` from the path. -/
def Response.contentTypeOf (filePath : Str) : Str :=
  if ends_with filePath ['.', 'h', 't', 'm', 'l'] || ends_with filePath ['.', 'h', 't', 'm'] then
    "text/html".toList
  else if ends_with filePath ['.', 'c', 's', 's'] then "text/css".toList
  else if ends_with filePath ['.', 'j', 's'] then "text/plain".toList
  else if ends_with filePath ['.', 'p', 'n', 'g'] then "image/png".toList
  else if ends_with filePath ['.', 'j', 'p', 'g'] || ends_with filePath ['.', 'j', 'p', 'e', 'g'] then
    "image/jpeg".toList
  else if ends_with filePath ['.', 'g', 'i', 'f'] then "image/gif".toList
  else if ends_with filePath ['.', 't', 'x', 't'] then "text/plain".toList
  else "application/octet-stream".toList

/-- The member function `Response::sendFile`: the value returned and the members afterwards. -/
def Response.sendFile (fs : FileSystem) (r : Response) (filePath : Str) : Bool × Response :=
  match fs filePath with
  | none =>
    let r := r.setStatusCode 404
    let r := r.setBody "404 Not Found".toList
    (false, r)
  | some content =>
    let r := r.setBody content
    let contentType := Response.contentTypeOf filePath
    let r := r.addHeader "Content-Type".toList contentType
    let r := r.addHeader "Content-Length".toList (decimal r.body.length)
    (true, r)

/-- The member function `Response::toString`. -/
def Response.toString (r : Response) : Str :=
  let responseStream : Str := []
  let responseStream :=
    put (put (put (put (put responseStream "HTTP/1.1 ".toList) (decimalInt r.statusCode))
      [' ']) r.statusMessage) ['\r', '\n']
  let responseStream :=
    r.headers.entries.foldl
      (fun os header => put (put (put (put os header.1) [':', ' ']) header.2) ['\r', '\n'])
      responseStream
  let responseStream := put responseStream ['\r', '\n']
  let responseStream := put responseStream r.body
  responseStream


/-! ## Functional description of the parser, used to state the lemmas -/

/-- The characters of the set `" \t"` trimmed from header values. -/
def isBlank (c : Char) : Bool := [' ', '\t'].contains c

/-- A string without its leading and its trailing spaces and tabs. -/
def trimBlanks (v : Str) : Str := (v.dropWhile isBlank).rdropWhile isBlank

/-- The effect of one header line on the header map: a line with a colon assigns, under the
text before the first colon, the trimmed text after it; a line without one does nothing. -/
def headerStep (m : HeaderMap) (line : Str) : HeaderMap :=
  if ':' ∈ line then
    m.assign (line.takeWhile (fun c => c != ':')) (trimBlanks (line.dropWhile (fun c => c != ':')).tail)
  else m

/-- The lines that successive calls of `std::getline` read from a buffer: the pieces between
line feeds, without a last empty piece. -/
def getlines : Str → List Str
  | [] => []
  | c :: cs =>
    if c = '\n' then [] :: getlines cs
    else
      match getlines cs with
      | [] => [[c]]
      | l :: ls => (c :: l) :: ls

/-- The lines still to be read from a stream. -/
def IStream.pending (is : IStream) : List Str := if is.good then getlines is.buf else []

/-- The request `Request::parse` leaves behind, described on the lines of the input: the
first line gives method and URI, the lines up to the first line `"\r"` feed the header map,
and the lines after it, each followed by a line feed, make the body, whose last character
is then dropped. -/
def parseSpec (r : Request) (rawRequest : Str) : Request :=
  let r1 := match getlines rawRequest with
    | [] => r
    | first :: _ => Request.parseRequestLine r first
  let rest := (getlines rawRequest).tail
  { r1 with
    headers := (rest.takeWhile (fun l => l != ['\r'])).foldl headerStep r1.headers
    body := (r1.body ++
      (((rest.dropWhile (fun l => l != ['\r'])).tail.map (fun l => l ++ ['\n'])).flatten)).dropLast }

/-- The tokens of a line: its maximal runs of characters that are not white space. -/
def tokens : Str → List Str
  | [] => []
  | c :: cs =>
    if isspace c then tokens cs
    else
      match cs with
      | [] => [[c]]
      | d :: _ =>
        if isspace d then [c] :: tokens cs
        else
          match tokens cs with
          | [] => [[c]]
          | t :: ts => (c :: t) :: ts

/-- The tokens still to be extracted from a stream. -/
def IStream.pendingTokens (is : IStream) : List Str := if is.good then tokens is.buf else []

/-- The suffixes tested by `Response::sendFile`. -/
def suffixTable : List Str :=
  [['.', 'h', 't', 'm', 'l'], ['.', 'h', 't', 'm'], ['.', 'c', 's', 's'], ['.', 'j', 's'],
   ['.', 'p', 'n', 'g'], ['.', 'j', 'p', 'g'], ['.', 'j', 'p', 'e', 'g'], ['.', 'g', 'i', 'f'],
   ['.', 't', 'x', 't']]

/-- The codes that have a `case` in `Response::getStatusMessage`. -/
def statusTableCodes : List Int :=
  [100, 101, 102, 103, 200, 201, 202, 203, 204, 205, 206, 207, 208, 226, 300, 301,
   302, 303, 304, 305, 307, 308, 400, 401, 402, 403, 404, 405, 406, 407, 408, 409,
   410, 411, 412, 413, 414, 415, 416, 417, 418, 421, 422, 423, 424, 425, 426, 428,
   429, 431, 451, 500, 501, 502, 503, 504, 505, 506, 507, 508, 510, 511]

/-- The states of a `Response` that calls of its public members can produce, starting from the
constructor; the files `sendFile` finds may differ from call to call. -/
inductive Response.Reachable : Response → Prop
  | init : Response.Reachable Response.default
  | setStatusCode (r : Response) (code : Int) :
      Response.Reachable r → Response.Reachable (r.setStatusCode code)
  | addHeader (r : Response) (key value : Str) :
      Response.Reachable r → Response.Reachable (r.addHeader key value)
  | setBody (r : Response) (responseBody : Str) :
      Response.Reachable r → Response.Reachable (r.setBody responseBody)
  | sendFile (r : Response) (fs : FileSystem) (filePath : Str) :
      Response.Reachable r → Response.Reachable (Response.sendFile fs r filePath).2

/-- The part of the output of `toString` that precedes the bytes of the body. -/
def Response.beforeBody (r : Response) : Str :=
  r.toString.take (r.toString.length - r.body.length)

/-- The number of positions of a string at which a non-empty pattern occurs. -/
def countOccurrences (pat : Str) : Str → Nat
  | [] => 0
  | c :: cs => (if pat.isPrefixOf (c :: cs) then 1 else 0) + countOccurrences pat cs

/-- The header terminator, carriage return and line feed twice. -/
def CRLFCRLF : Str := ['\r', '\n', '\r', '\n']

/-! ## `server.hpp` -/

/-- The position of the first occurrence of `pat` in a string, if there is one. -/
def indexOfSub (pat : Str) : Str → Option Nat
  | [] => if pat.isEmpty then some 0 else none
  | c :: cs =>
    if pat.isPrefixOf (c :: cs) then some 0 else (indexOfSub pat cs).map (fun i => i + 1)

/-- The call `s.find(pat)` with a string pattern: the first position of `pat`, or `npos`. -/
def find_str (s pat : Str) : Nat :=
  match indexOfSub pat s with
  | some i => i
  | none => npos

/-- What one call of `recv` on the client socket gives: its return value (positive: that many
bytes were received; zero: the peer has closed; negative: the read failed) and the content of
`buffer` after the call. -/
structure RecvResult where
  ret : Int
  buffer : Str
  deriving DecidableEq

/-- The result of a call of `recv` that receives the bytes `chunk`. -/
def RecvResult.ofChunk (chunk : Str) : RecvResult := ⟨chunk.length, chunk⟩

/-- The receive loop of `Server::startListening`, run on the results of the successive calls
of `recv`; when the list runs out the peer has closed and `recv` returns zero. -/
def Server.receiveRequest : List RecvResult → Str → Str
  | [], rawRequest => rawRequest
  | rv :: rest, rawRequest =>
    let bytesRead := rv.ret
    if bytesRead > 0 then
      let rawRequest := rawRequest ++ rv.buffer.take bytesRead.toNat
      if find_str rawRequest CRLFCRLF ≠ npos then rawRequest
      else Server.receiveRequest rest rawRequest
    else rawRequest

/-- The response `Server::startListening` builds for a parsed request. -/
def Server.buildResponse (serverRoot : Str) (fs : FileSystem) (request : Request) : Response :=
  let response := Response.default
  let response := response.setStatusCode 200
  let filePath := serverRoot ++ request.uri
  let sent := Response.sendFile fs response filePath
  if !sent.1 then (sent.2.setStatusCode 404).setBody "404 Not Found".toList else sent.2

/-- Parsing the raw request and building the response, as `Server::startListening` does
once the bytes are received; `garbage` is the value the storage of `request.method` held. -/
def Server.handleRequest (serverRoot : Str) (fs : FileSystem) (garbage : METHOD)
    (rawRequest : Str) : Except Fault Response := do
  let request ← Request.ofRaw garbage rawRequest
  pure (Server.buildResponse serverRoot fs request)

/-- The string `responseStr` that `Server::startListening` passes to `send`. -/
def Server.responseBytes (serverRoot : Str) (fs : FileSystem) (garbage : METHOD)
    (rawRequest : Str) : Except Fault Str := do
  let response ← Server.handleRequest serverRoot fs garbage rawRequest
  pure response.toString

/-- What the server does on the client socket. -/
inductive SocketOp where
  | send (bytes : Str)
  | close
  deriving DecidableEq

/-- What the call `send(clientSocket, ..., 0)` meets.  Either it returns, with the number of
bytes taken or with -1, a value the server does not look at; or, on a connection that the peer
has reset, the signal `SIGPIPE` is raised: the call passes no `MSG_NOSIGNAL` and the program
installs no handler, so the signal ends the process inside `send`. -/
inductive SendResult where
  | returned (ret : Int)
  | sigpipe
  deriving DecidableEq

/-- How the handling of one connection ends: the calls made on the client socket, and whether
the process is still running afterwards. -/
structure Handled where
  ops : List SocketOp
  running : Bool
  deriving DecidableEq

/-- The handling of one accepted connection in `Server::startListening`: receive, parse,
respond, `send`, and, when `send` returns, `close`. -/
def Server.handleClient (serverRoot : Str) (fs : FileSystem) (garbage : METHOD)
    (recvs : List RecvResult) (sendResult : SendResult) : Except Fault Handled := do
  let rawRequest := Server.receiveRequest recvs []
  let responseStr ← Server.responseBytes serverRoot fs garbage rawRequest
  match sendResult with
  | SendResult.returned _ => pure ⟨[SocketOp.send responseStr, SocketOp.close], true⟩
  | SendResult.sigpipe => pure ⟨[SocketOp.send responseStr], false⟩

/-- What one turn of the accept loop meets: the outcome of `accept`, which is `none` when it
fails and the results of the calls of `recv` on the new socket otherwise, what the call of
`send` meets, and the value the storage of `request.method` holds. -/
structure Turn where
  accepted : Option (List RecvResult)
  sendResult : SendResult
  garbage : METHOD

/-- The accept loop of `Server::startListening` over its first turns: the calls made on each
accepted socket, in order, and whether the process is still running after these turns.  A
failed `accept` is skipped; a connection whose handling ends the process is the last one. -/
def Server.acceptLoop (serverRoot : Str) (fs : FileSystem) :
    List Turn → Except Fault (List (List SocketOp) × Bool)
  | [] => pure ([], true)
  | t :: rest =>
    match t.accepted with
    | none => Server.acceptLoop serverRoot fs rest
    | some recvs => do
      let handled ← Server.handleClient serverRoot fs t.garbage recvs t.sendResult
      if handled.running then do
        let later ← Server.acceptLoop serverRoot fs rest
        pure (handled.ops :: later.1, later.2)
      else pure ([handled.ops], false)

/-! # Lemmas -/

/-! ## The string library -/

theorem take_length_takeWhile (p : Char → Bool) (l : Str) :
    l.take (l.takeWhile p).length = l.takeWhile p := by
  induction l with
  | nil => simp
  | cons a l ih => by_cases h : p a = true <;> simp [List.takeWhile, h, ih]

theorem drop_length_takeWhile (p : Char → Bool) (l : Str) :
    l.drop (l.takeWhile p).length = l.dropWhile p := by
  induction l with
  | nil => simp
  | cons a l ih => by_cases h : p a = true <;> simp [List.takeWhile, List.dropWhile, h, ih]

theorem length_takeWhile_le (p : Char → Bool) (l : Str) : (l.takeWhile p).length ≤ l.length := by
  induction l with
  | nil => simp
  | cons a l ih =>
    by_cases h : p a = true <;> simp [List.takeWhile, h]
    omega

theorem length_takeWhile_lt_iff (p : Char → Bool) (l : Str) :
    (l.takeWhile p).length < l.length ↔ ∃ x ∈ l, p x = false := by
  induction l with
  | nil => simp
  | cons a l ih =>
    by_cases h : p a = true
    · simp [List.takeWhile, h, ih]
    · simp [List.takeWhile, h]

theorem length_dropWhile_le (p : Char → Bool) (l : Str) : (l.dropWhile p).length ≤ l.length := by
  induction l with
  | nil => simp
  | cons a l ih =>
    by_cases h : p a = true <;> simp [List.dropWhile, h]
    omega

theorem rdropWhile_eq_take (p : Char → Bool) (l : Str) :
    l.rdropWhile p = l.take (l.length - (l.reverse.takeWhile p).length) := by
  rw [List.rdropWhile, ← drop_length_takeWhile, List.drop_reverse, List.reverse_reverse]

theorem find_colon (line : Str) :
    (':' ∈ line → find line ':' = (line.takeWhile (fun c => c != ':')).length ∧
      find line ':' < line.length) ∧
    (':' ∉ line → find line ':' = npos) := by
  have key := length_takeWhile_lt_iff (fun c => c != ':') line
  constructor
  · intro h
    have h2 : (line.takeWhile (fun c => c != ':')).length < line.length :=
      key.2 ⟨':', h, by simp⟩
    simp [find, h2]
  · intro h
    have h2 : ¬ (line.takeWhile (fun c => c != ':')).length < line.length := by
      intro h3
      obtain ⟨x, hx, hp⟩ := key.1 h3
      have : x = ':' := by simpa using hp
      exact h (this ▸ hx)
    simp [find, h2]

theorem erase_front_blanks (v : Str) (hlen : v.length < SIZE_MOD) :
    erase v 0 (find_first_not_of v [' ', '\t']) = .ok (v.dropWhile isBlank) := by
  have e : (fun c => [' ', '\t'].contains c) = isBlank := rfl
  by_cases h : (v.takeWhile isBlank).length < v.length
  · simp only [erase, find_first_not_of, e, h, if_true]
    simp [drop_length_takeWhile]
  · have h2 : v.length = (v.takeWhile isBlank).length :=
      Nat.le_antisymm (Nat.le_of_not_lt h) (length_takeWhile_le _ _)
    have h3 : v.dropWhile isBlank = [] := by
      rw [← drop_length_takeWhile]; exact List.drop_eq_nil_of_le (Nat.le_of_eq h2)
    have h4 : v.length ≤ npos := by simp only [SIZE_MOD] at hlen; simp only [npos]; omega
    simp only [erase, find_first_not_of, e, h, if_false]
    simp [h3, List.drop_eq_nil_of_le h4]

theorem erase_back_blanks (v : Str) (hlen : v.length < SIZE_MOD) :
    erase v (sizeAdd (find_last_not_of v [' ', '\t']) 1) npos = .ok (v.rdropWhile isBlank) := by
  have e : (fun c => [' ', '\t'].contains c) = isBlank := rfl
  have h4 : v.length ≤ npos := by simp only [SIZE_MOD] at hlen; simp only [npos]; omega
  rw [rdropWhile_eq_take]
  by_cases h : (v.reverse.takeWhile isBlank).length < v.length
  · have h5 : sizeAdd (v.length - 1 - (v.reverse.takeWhile isBlank).length) 1
        = v.length - (v.reverse.takeWhile isBlank).length := by
      simp only [sizeAdd, SIZE_MOD] at *
      rw [Nat.mod_eq_of_lt (by omega)]
      omega
    simp only [find_last_not_of, e, h, if_true, h5, erase]
    have h6 : ¬ v.length - (v.reverse.takeWhile isBlank).length > v.length := by omega
    rw [if_neg h6]
    congr 1
    rw [List.drop_drop, List.drop_eq_nil_of_le (by omega), List.append_nil]
  · have h5 : sizeAdd npos 1 = 0 := by decide
    have h2 : v.length ≤ (v.reverse.takeWhile isBlank).length := Nat.le_of_not_lt h
    simp only [find_last_not_of, e, h, if_false, h5, erase]
    simp [List.drop_eq_nil_of_le h4, Nat.sub_eq_zero_of_le h2]

theorem parseHeaderLine_eq (headers : HeaderMap) (line : Str) (hlen : line.length < SIZE_MOD) :
    Request.parseHeaderLine headers line = .ok (headerStep headers line) := by
  by_cases hc : ':' ∈ line
  · obtain ⟨h1, h2⟩ := (find_colon line).1 hc
    have h3 : find line ':' ≠ npos := by
      simp only [SIZE_MOD] at hlen; simp only [npos]; omega
    have h4 : sizeAdd (find line ':') 1 = find line ':' + 1 := by
      simp only [sizeAdd, SIZE_MOD] at *
      exact Nat.mod_eq_of_lt (by omega)
    have hkey : substr line 0 (find line ':') = .ok (line.takeWhile (fun c => c != ':')) := by
      simp [substr, h1, take_length_takeWhile]
    have hval : substr line (find line ':' + 1) npos
        = .ok (line.dropWhile (fun c => c != ':')).tail := by
      have h5 : ¬ find line ':' + 1 > line.length := by omega
      have h6 : (line.drop (find line ':' + 1)).length ≤ npos := by
        simp only [SIZE_MOD] at hlen; simp only [npos, List.length_drop]; omega
      simp only [substr, h5, if_false, List.take_of_length_le h6]
      rw [h1, ← drop_length_takeWhile, List.tail_drop]
    have hv1 : (line.dropWhile (fun c => c != ':')).tail.length < SIZE_MOD := by
      have := length_dropWhile_le (fun c => c != ':') line
      simp only [List.length_tail]; omega
    have hv2 : ((line.dropWhile (fun c => c != ':')).tail.dropWhile isBlank).length < SIZE_MOD := by
      have := length_dropWhile_le isBlank (line.dropWhile (fun c => c != ':')).tail
      omega
    simp only [Request.parseHeaderLine, h3, ne_eq, not_false_eq_true, if_true, h4, hkey, hval]
    simp only [bind, Except.bind, erase_front_blanks _ hv1, erase_back_blanks _ hv2]
    simp [headerStep, hc, trimBlanks, pure, Except.pure]
  · have h1 := (find_colon line).2 hc
    simp [Request.parseHeaderLine, h1, headerStep, hc, pure, Except.pure]

/-! ## Streams and lines -/

theorem getlines_eq_nil_iff (b : Str) : getlines b = [] ↔ b = [] := by
  cases b with
  | nil => simp [getlines]
  | cons c cs =>
    by_cases h : c = '\n'
    · simp [getlines, h]
    · simp only [getlines, h, if_false]
      split <;> simp

theorem readUntil_getlines (b : Str) :
    (∀ l rest, readUntil '\n' b = (l, some rest) → getlines b = l :: getlines rest) ∧
    (∀ l, readUntil '\n' b = (l, none) → l = b ∧ (b ≠ [] → getlines b = [b])) := by
  induction b with
  | nil => simp [readUntil, getlines]
  | cons c cs ih =>
    by_cases h : c = '\n'
    · subst h
      simp [readUntil, getlines]
    · obtain ⟨ih1, ih2⟩ := ih
      constructor
      · intro l rest hr
        simp only [readUntil, h, if_false, Prod.mk.injEq] at hr
        obtain ⟨hl, hrest⟩ := hr
        have := ih1 (readUntil '\n' cs).1 rest (by rw [← hrest])
        simp only [getlines, h, if_false, this, ← hl]
      · intro l hr
        simp only [readUntil, h, if_false, Prod.mk.injEq] at hr
        obtain ⟨hl, hrest⟩ := hr
        obtain ⟨h1, h2⟩ := ih2 (readUntil '\n' cs).1 (by rw [← hrest])
        refine ⟨by rw [← hl, h1], fun _ => ?_⟩
        simp only [getlines, h, if_false]
        cases cs with
        | nil => simp [getlines]
        | cons d ds => rw [h2 (by simp)]

/-- What one call of `std::getline` does, in terms of the lines still to be read. -/
theorem getline_pending (is : IStream) (str : Str) :
    (is.pending = [] → (getline is str).1.ok = false ∧ (getline is str).1.pending = []) ∧
    (∀ l ls, is.pending = l :: ls →
      (getline is str).1.ok = true ∧ (getline is str).2 = l ∧ (getline is str).1.pending = ls) := by
  by_cases hg : is.good = true
  · have hf : is.failbit = false := by
      simp only [IStream.good, Bool.and_eq_true, Bool.not_eq_true'] at hg
      exact hg.2
    obtain ⟨h1, h2⟩ := readUntil_getlines is.buf
    simp only [IStream.pending, hg, if_true, getline]
    rcases hr : readUntil '\n' is.buf with ⟨l0, _ | rest⟩
    · obtain ⟨e1, e2⟩ := h2 l0 hr
      subst e1
      constructor
      · intro hp
        have hb := (getlines_eq_nil_iff is.buf).1 hp
        simp [hb, IStream.ok, IStream.good]
      · intro l ls hp
        have hne : is.buf ≠ [] := fun hb => by simp [hb, getlines] at hp
        rw [e2 hne] at hp
        simp only [List.cons.injEq] at hp
        obtain ⟨e3, e4⟩ := hp
        subst e3 e4
        have : is.buf.isEmpty = false := by
          cases hb : is.buf with
          | nil => exact absurd hb hne
          | cons => rfl
        simp [IStream.ok, IStream.good, this]
    · have e := h1 l0 rest hr
      constructor
      · intro hp
        rw [e] at hp
        exact absurd hp (by simp)
      · intro l ls hp
        rw [e] at hp
        simp only [List.cons.injEq] at hp
        obtain ⟨e3, e4⟩ := hp
        subst e3 e4
        have hg2 : IStream.good { is with buf := rest } = true := hg
        simp only [IStream.ok, hf, hg2, if_true]
        simp
        intro hbad
        simp_all [IStream.good]
  · simp only [IStream.pending, hg, getline]
    simp [IStream.ok, IStream.good]

theorem getlines_length_le (b : Str) :
    (getlines b).length ≤ b.length ∧ ∀ l ∈ getlines b, l.length ≤ b.length := by
  induction b with
  | nil => simp [getlines]
  | cons c cs ih =>
    obtain ⟨ih1, ih2⟩ := ih
    by_cases h : c = '\n'
    · simp only [getlines, h, if_true, List.length_cons, List.mem_cons]
      refine ⟨by omega, ?_⟩
      rintro l (rfl | hl)
      · simp
      · have := ih2 l hl; omega
    · simp only [getlines, h, if_false]
      cases hgl : getlines cs with
      | nil => simp
      | cons l0 ls =>
        rw [hgl] at ih1 ih2
        simp only [List.length_cons, List.mem_cons] at ih1 ih2 ⊢
        refine ⟨by omega, ?_⟩
        rintro l (rfl | hl)
        · have := ih2 l0 (Or.inl rfl); simp; omega
        · have := ih2 l (Or.inr hl); omega

/-! ## The two loops and `Request::parse` -/

theorem headerLoop_eq (ls : List Str) :
    ∀ (fuel : Nat) (is : IStream) (line : Str) (hs : HeaderMap),
      is.pending = ls → ls.length < fuel → (∀ l ∈ ls, l.length < SIZE_MOD) →
      ∃ is1 line1, Request.headerLoop fuel is line hs
          = .ok (is1, line1, (ls.takeWhile (fun l => l != ['\r'])).foldl headerStep hs) ∧
        is1.pending = (ls.dropWhile (fun l => l != ['\r'])).tail := by
  induction ls with
  | nil =>
    intro fuel is line hs hp hf _
    obtain ⟨f, rfl⟩ : ∃ f, fuel = f + 1 := ⟨fuel - 1, by simp at hf; omega⟩
    obtain ⟨h1, h2⟩ := (getline_pending is line).1 hp
    exact ⟨(getline is line).1, (getline is line).2, by simp [Request.headerLoop, h1, pure, Except.pure], by simp [h2]⟩
  | cons l ls ih =>
    intro fuel is line hs hp hf hlen
    obtain ⟨f, rfl⟩ : ∃ f, fuel = f + 1 := ⟨fuel - 1, by simp at hf; omega⟩
    obtain ⟨h1, h2, h3⟩ := (getline_pending is line).2 l ls hp
    by_cases hl : l = ['\r']
    · refine ⟨(getline is line).1, (getline is line).2, ?_, ?_⟩
      · simp [Request.headerLoop, h1, h2, hl, pure, Except.pure]
      · simp [hl, h3]
    · have hstep := parseHeaderLine_eq hs l (hlen l (List.mem_cons_self _ _))
      obtain ⟨is1, line1, e1, e2⟩ := ih f (getline is line).1 (getline is line).2 (headerStep hs l) h3
        (by simp at hf; omega) (fun x hx => hlen x (List.mem_cons_of_mem _ hx))
      refine ⟨is1, line1, ?_, ?_⟩
      · simp only [Request.headerLoop, h1, h2, hl, ne_eq, not_false_eq_true, decide_True,
          Bool.and_self, if_true, hstep, bind, Except.bind]
        rw [h2] at e1
        rw [e1]
        simp [hl]
      · simp [hl, e2]

theorem bodyLoop_eq (ls : List Str) :
    ∀ (fuel : Nat) (is : IStream) (bodyLine body : Str),
      is.pending = ls → ls.length < fuel →
      ∃ is1 line1, Request.bodyLoop fuel is bodyLine body
          = .ok (is1, line1, body ++ (ls.map (fun l => l ++ ['\n'])).flatten) := by
  induction ls with
  | nil =>
    intro fuel is line body hp hf
    obtain ⟨f, rfl⟩ : ∃ f, fuel = f + 1 := ⟨fuel - 1, by simp at hf; omega⟩
    obtain ⟨h1, _⟩ := (getline_pending is line).1 hp
    exact ⟨(getline is line).1, (getline is line).2, by simp [Request.bodyLoop, h1, pure, Except.pure]⟩
  | cons l ls ih =>
    intro fuel is line body hp hf
    obtain ⟨f, rfl⟩ : ∃ f, fuel = f + 1 := ⟨fuel - 1, by simp at hf; omega⟩
    obtain ⟨h1, h2, h3⟩ := (getline_pending is line).2 l ls hp
    obtain ⟨is1, line1, e1⟩ := ih f (getline is line).1 (getline is line).2
      (body ++ ((getline is line).2 ++ ['\n'])) h3 (by simp at hf; omega)
    refine ⟨is1, line1, ?_⟩
    simp only [Request.bodyLoop, h1, if_true, e1]
    simp [h2]

theorem length_tail_dropWhile_le (p : Str → Bool) (ls : List Str) :
    (ls.dropWhile p).tail.length ≤ ls.length ∧ ∀ l ∈ (ls.dropWhile p).tail, l ∈ ls := by
  induction ls with
  | nil => simp
  | cons a ls ih =>
    by_cases h : p a = true
    · simp only [List.dropWhile, h, List.length_cons, List.mem_cons]
      exact ⟨by omega, fun l hl => Or.inr (ih.2 l hl)⟩
    · simp only [List.dropWhile, h, List.tail_cons, List.length_cons, List.mem_cons]
      exact ⟨by omega, fun l hl => Or.inr hl⟩

/-- `Request::parse` never faults on a string whose size fits `size_t`, and what it leaves
behind is the request described by `parseSpec`. -/
theorem parse_eq_parseSpec (r : Request) (rawRequest : Str) (hlen : rawRequest.length < SIZE_MOD) :
    Request.parse r rawRequest = .ok (parseSpec r rawRequest) := by
  have hp : (IStream.ofString rawRequest).pending = getlines rawRequest := by
    simp [IStream.pending, IStream.ofString, IStream.good]
  obtain ⟨hn, hl⟩ := getlines_length_le rawRequest
  have hbound : ∀ l ∈ (getlines rawRequest).tail, l.length < SIZE_MOD := fun l hm =>
    Nat.lt_of_le_of_lt (hl l (List.mem_of_mem_tail hm)) hlen
  have htail : (getlines rawRequest).tail.length < rawRequest.length + 2 := by
    simp only [List.length_tail]; omega
  obtain ⟨hd1, hd2⟩ := length_tail_dropWhile_le (fun l => l != ['\r']) (getlines rawRequest).tail
  -- the first call of `getline`
  have hfirst : (getline (IStream.ofString rawRequest) []).1.pending = (getlines rawRequest).tail ∧
      (if (getline (IStream.ofString rawRequest) []).1.ok = true
        then Request.parseRequestLine r (getline (IStream.ofString rawRequest) []).2 else r)
        = (match getlines rawRequest with
            | [] => r
            | first :: _ => Request.parseRequestLine r first) := by
    cases hg : getlines rawRequest with
    | nil =>
      obtain ⟨h1, h2⟩ := (getline_pending (IStream.ofString rawRequest) []).1 (hp.trans hg)
      simp [h1, h2]
    | cons first rest =>
      obtain ⟨h1, h2, h3⟩ := (getline_pending (IStream.ofString rawRequest) []).2 first rest
        (hp.trans hg)
      simp [h1, h2, h3]
  obtain ⟨hf1, hf2⟩ := hfirst
  generalize hr1 : (match getlines rawRequest with
            | [] => r
            | first :: _ => Request.parseRequestLine r first) = r1 at hf2
  obtain ⟨is1, line1, e1, e2⟩ := headerLoop_eq (getlines rawRequest).tail (rawRequest.length + 2)
    (getline (IStream.ofString rawRequest) []).1 (getline (IStream.ofString rawRequest) []).2
    r1.headers hf1 htail hbound
  obtain ⟨is2, line2, e3⟩ := bodyLoop_eq _ (rawRequest.length + 2) is1 [] r1.body e2
    (Nat.lt_of_le_of_lt hd1 htail)
  simp only [Request.parse, hf2, e1, bind, Except.bind, e3]
  simp only [parseSpec, hr1]
  generalize r1.body ++ (List.map (fun l => l ++ ['\n'])
    (List.dropWhile (fun l => l != ['\r']) (getlines rawRequest).tail).tail).flatten = b
  cases b with
  | nil => simp [pure, Except.pure]
  | cons c cs => simp [pop_back, pure, Except.pure, bind, Except.bind]

/-! ## Tokens and the request line -/

theorem tokens_dropWhile_isspace (b : Str) : tokens (b.dropWhile isspace) = tokens b := by
  induction b with
  | nil => rfl
  | cons c cs ih =>
    by_cases h : isspace c = true
    · simp [List.dropWhile, h, tokens, ih]
    · simp [List.dropWhile, h]

theorem tokens_cons_nonspace (c : Char) (cs : Str) (hc : isspace c = false) :
    tokens (c :: cs) = (c :: cs.takeWhile (fun x => !isspace x))
      :: tokens (cs.dropWhile (fun x => !isspace x)) := by
  induction cs generalizing c with
  | nil => simp [tokens, hc]
  | cons d ds ih =>
    by_cases hd : isspace d = true
    · simp [tokens, hc, hd, List.takeWhile, List.dropWhile]
    · have hd2 : isspace d = false := by simpa using hd
      have e := ih d hd2
      rw [tokens]
      simp only [hc, hd2, Bool.false_eq_true, if_false, e]
      simp [List.takeWhile, List.dropWhile, hd2]

/-- What one formatted extraction of a string does, in terms of the tokens still to be read. -/
theorem extractString_pending (is : IStream) (str : Str) :
    (is.pendingTokens = [] →
      (extractString is str).2 = str ∧ (extractString is str).1.pendingTokens = []) ∧
    (∀ t ts, is.pendingTokens = t :: ts →
      (extractString is str).2 = t ∧ (extractString is str).1.pendingTokens = ts) := by
  by_cases hg : is.good = true
  · simp only [IStream.pendingTokens, hg, if_true, extractString]
    rw [← tokens_dropWhile_isspace]
    cases hb : is.buf.dropWhile isspace with
    | nil => simp [tokens, IStream.good]
    | cons c cs =>
      have hc : isspace c = false := by
        have := List.head_dropWhile_not isspace is.buf (by rw [hb]; simp)
        simpa [hb] using this
      rw [tokens_cons_nonspace c cs hc]
      simp only [List.isEmpty_cons, Bool.false_eq_true, if_false]
      constructor
      · intro h; exact absurd h (by simp)
      · intro t ts h
        simp only [List.cons.injEq] at h
        obtain ⟨h1, h2⟩ := h
        subst h1 h2
        constructor
        · simp [List.takeWhile, hc]
        · simp only [List.dropWhile, hc, Bool.not_false, IStream.good]
          cases hr : cs.dropWhile (fun x => !isspace x) with
          | nil => simp [tokens]
          | cons => simp
  · simp only [IStream.pendingTokens, hg, extractString]
    simp [IStream.good]

/-- The request line: the method is read off the first token and the URI is the second one,
an absent token counting as the empty string. -/
theorem parseRequestLine_eq (r : Request) (line : Str) :
    Request.parseRequestLine r line =
      { r with method := parseMethod ((tokens line).getD 0 []), uri := (tokens line).getD 1 [] } := by
  have hp : (IStream.ofString line).pendingTokens = tokens line := by
    simp [IStream.pendingTokens, IStream.ofString, IStream.good]
  obtain ⟨a1, a2⟩ := extractString_pending (IStream.ofString line) []
  obtain ⟨b1, b2⟩ := extractString_pending (extractString (IStream.ofString line) []).1 []
  simp only [Request.parseRequestLine]
  cases ht : tokens line with
  | nil =>
    obtain ⟨e1, e2⟩ := a1 (hp.trans ht)
    obtain ⟨e3, _⟩ := b1 e2
    simp [e1, e3]
  | cons t ts =>
    obtain ⟨e1, e2⟩ := a2 t ts (hp.trans ht)
    cases ts with
    | nil =>
      obtain ⟨e3, _⟩ := b1 e2
      simp [e1, e3]
    | cons u us =>
      obtain ⟨e3, _⟩ := b2 u us e2
      simp [e1, e3]

/-! ## Content types -/

theorem ends_with_iff (p s : Str) : ends_with p s = true ↔ s <:+ p := by
  simp [ends_with]

theorem suffixTable_exclusive (p s : Str) (hs : s ∈ suffixTable) (h : ends_with p s = true) :
    ∀ t ∈ suffixTable, t ≠ s → ends_with p t = false := by
  intro t ht hne
  by_contra hc
  have hc2 : ends_with p t = true := by simpa using hc
  have h1 := (ends_with_iff p s).1 h
  have h2 := (ends_with_iff p t).1 hc2
  have key : ∀ a ∈ suffixTable, ∀ b ∈ suffixTable, a <:+ b → a = b := by decide
  rcases List.suffix_or_suffix_of_suffix h1 h2 with h3 | h3
  · exact hne (key s hs t ht h3).symm
  · exact hne (key t ht s hs h3)

theorem contentTypeOf_table (p : Str) :
    (Response.contentTypeOf p = "text/html".toList ↔
      (ends_with p ['.', 'h', 't', 'm', 'l'] = true ∨ ends_with p ['.', 'h', 't', 'm'] = true)) ∧
    (Response.contentTypeOf p = "text/css".toList ↔ ends_with p ['.', 'c', 's', 's'] = true) ∧
    (Response.contentTypeOf p = "text/plain".toList ↔
      (ends_with p ['.', 'j', 's'] = true ∨ ends_with p ['.', 't', 'x', 't'] = true)) ∧
    (Response.contentTypeOf p = "image/png".toList ↔ ends_with p ['.', 'p', 'n', 'g'] = true) ∧
    (Response.contentTypeOf p = "image/jpeg".toList ↔
      (ends_with p ['.', 'j', 'p', 'g'] = true ∨ ends_with p ['.', 'j', 'p', 'e', 'g'] = true)) ∧
    (Response.contentTypeOf p = "image/gif".toList ↔ ends_with p ['.', 'g', 'i', 'f'] = true) ∧
    (Response.contentTypeOf p = "application/octet-stream".toList ↔
      ∀ s ∈ suffixTable, ends_with p s = false) := by
  by_cases h1 : ends_with p ['.', 'h', 't', 'm', 'l'] = true
  · have E := suffixTable_exclusive p _ (by decide) h1
    simp [suffixTable] at E
    simp [Response.contentTypeOf, suffixTable, h1, E]
  by_cases h2 : ends_with p ['.', 'h', 't', 'm'] = true
  · have E := suffixTable_exclusive p _ (by decide) h2
    simp [suffixTable] at E
    simp [Response.contentTypeOf, suffixTable, h2, E]
  by_cases h3 : ends_with p ['.', 'c', 's', 's'] = true
  · have E := suffixTable_exclusive p _ (by decide) h3
    simp [suffixTable] at E
    simp [Response.contentTypeOf, suffixTable, h3, E]
  by_cases h4 : ends_with p ['.', 'j', 's'] = true
  · have E := suffixTable_exclusive p _ (by decide) h4
    simp [suffixTable] at E
    simp [Response.contentTypeOf, suffixTable, h4, E]
  by_cases h5 : ends_with p ['.', 'p', 'n', 'g'] = true
  · have E := suffixTable_exclusive p _ (by decide) h5
    simp [suffixTable] at E
    simp [Response.contentTypeOf, suffixTable, h5, E]
  by_cases h6 : ends_with p ['.', 'j', 'p', 'g'] = true
  · have E := suffixTable_exclusive p _ (by decide) h6
    simp [suffixTable] at E
    simp [Response.contentTypeOf, suffixTable, h6, E]
  by_cases h7 : ends_with p ['.', 'j', 'p', 'e', 'g'] = true
  · have E := suffixTable_exclusive p _ (by decide) h7
    simp [suffixTable] at E
    simp [Response.contentTypeOf, suffixTable, h7, E]
  by_cases h8 : ends_with p ['.', 'g', 'i', 'f'] = true
  · have E := suffixTable_exclusive p _ (by decide) h8
    simp [suffixTable] at E
    simp [Response.contentTypeOf, suffixTable, h8, E]
  by_cases h9 : ends_with p ['.', 't', 'x', 't'] = true
  · have E := suffixTable_exclusive p _ (by decide) h9
    simp [suffixTable] at E
    simp [Response.contentTypeOf, suffixTable, h9, E]
  simp only [Bool.not_eq_true] at h1 h2 h3 h4 h5 h6 h7 h8 h9
  simp [Response.contentTypeOf, suffixTable, h1, h2, h3, h4, h5, h6, h7, h8, h9]

/-! ## Header maps: lookup after assignment -/

theorem lookup_assignEntries_same (k v : Str) (es : List (Str × Str)) :
    (assignEntries k v es).lookup k = some v := by
  induction es with
  | nil => simp [assignEntries, List.lookup]
  | cons e es ih =>
    obtain ⟨a, b⟩ := e
    by_cases h : a = k
    · simp [assignEntries, h, List.lookup]
    · have h2 : (k == a) = false := by simpa using fun h3 => h h3.symm
      simp [assignEntries, h, List.lookup, h2, ih]

theorem lookup_assignEntries_other (k v j : Str) (es : List (Str × Str)) (hjk : j ≠ k) :
    (assignEntries k v es).lookup j = es.lookup j := by
  induction es with
  | nil =>
    have h2 : (j == k) = false := by simpa using hjk
    simp [assignEntries, List.lookup, h2]
  | cons e es ih =>
    obtain ⟨a, b⟩ := e
    by_cases h : a = k
    · subst h
      have h2 : (j == a) = false := by simpa using hjk
      simp [assignEntries, List.lookup, h2]
    · simp only [assignEntries, h, if_false, List.lookup, ih]

theorem HeaderMap.get?_assign_same (m : HeaderMap) (k v : Str) : (m.assign k v).get? k = some v :=
  lookup_assignEntries_same k v m.entries

theorem HeaderMap.get?_assign_other (m : HeaderMap) (k v j : Str) (h : j ≠ k) :
    (m.assign k v).get? j = m.get? j :=
  lookup_assignEntries_other k v j m.entries h

theorem sendFile_of_none (fs : FileSystem) (r : Response) (filePath : Str)
    (h : fs filePath = none) :
    Response.sendFile fs r filePath
      = (false, (r.setStatusCode 404).setBody "404 Not Found".toList) := by
  rw [Response.sendFile, h]

theorem sendFile_of_some (fs : FileSystem) (r : Response) (filePath content : Str)
    (h : fs filePath = some content) :
    Response.sendFile fs r filePath
      = (true, ((r.setBody content).addHeader "Content-Type".toList
          (Response.contentTypeOf filePath)).addHeader "Content-Length".toList
            (decimal content.length)) := by
  rw [Response.sendFile, h]
  rfl

/-! ## Inputs of a given shape -/

theorem getlines_append_lf (l rest : Str) (h : '\n' ∉ l) :
    getlines (l ++ '\n' :: rest) = l :: getlines rest := by
  induction l with
  | nil => simp [getlines]
  | cons c cs ih =>
    have hc : c ≠ '\n' := fun e => h (by simp [e])
    have hcs : '\n' ∉ cs := fun e => h (List.mem_cons_of_mem _ e)
    simp [getlines, hc, ih hcs]

theorem getlines_header_block (hs : List Str) (rest : Str) (h : ∀ x ∈ hs, '\n' ∉ x) :
    getlines ((hs.map (fun x => x ++ ['\r', '\n'])).flatten ++ rest)
      = hs.map (fun x => x ++ ['\r']) ++ getlines rest := by
  induction hs with
  | nil => simp
  | cons x xs ih =>
    have hx : '\n' ∉ x ++ ['\r'] := by
      have := h x (List.mem_cons_self _ _)
      simp [this]
    have e : (List.map (fun x => x ++ ['\r', '\n']) (x :: xs)).flatten ++ rest
        = (x ++ ['\r']) ++ '\n' :: ((xs.map (fun x => x ++ ['\r', '\n'])).flatten ++ rest) := by
      simp
    rw [e, getlines_append_lf _ _ hx, ih (fun y hy => h y (List.mem_cons_of_mem _ hy))]
    simp

theorem flatten_getlines (b : Str) :
    ((getlines b).map (fun l => l ++ ['\n'])).flatten
      = b ++ (if b = [] ∨ b.getLast? = some '\n' then [] else ['\n']) := by
  induction b with
  | nil => simp [getlines]
  | cons c cs ih =>
    by_cases hc : c = '\n'
    · subst hc
      simp only [getlines, if_true, List.map_cons, List.flatten_cons, ih]
      cases cs with
      | nil => simp
      | cons d ds => simp [List.getLast?_cons_cons]
    · cases cs with
      | nil => simp [getlines, hc]
      | cons d ds =>
        cases hg : getlines (d :: ds) with
        | nil => exact absurd ((getlines_eq_nil_iff _).1 hg) (by simp)
        | cons l ls =>
          rw [hg] at ih
          have e : getlines (c :: d :: ds) = (c :: l) :: ls := by
            rw [getlines]; simp only [hc, if_false, hg]
          rw [e]
          simp only [List.map_cons, List.flatten_cons, List.cons_append] at ih ⊢
          rw [ih]
          simp [List.getLast?_cons_cons]

theorem dropLast_flatten_getlines (b : Str) :
    (((getlines b).map (fun l => l ++ ['\n'])).flatten).dropLast
      = if b.getLast? = some '\n' then b.dropLast else b := by
  rw [flatten_getlines]
  by_cases h1 : b = []
  · simp [h1]
  by_cases h2 : b.getLast? = some '\n'
  · simp [h2]
  · simp only [h1, h2, or_self, if_false]
    exact List.dropLast_concat

theorem parseMethod_table (M : Str) :
    (parseMethod M = .GET ↔ M = "GET".toList) ∧
    (parseMethod M = .POST ↔ M = "POST".toList) ∧
    (parseMethod M = .PUT ↔ M = "PUT".toList) ∧
    (parseMethod M = .DELETE ↔ M = "DELETE".toList) ∧
    (parseMethod M = .PATCH ↔ M = "PATCH".toList) ∧
    (parseMethod M = .OPTIONS ↔ M = "OPTIONS".toList) ∧
    (parseMethod M = .HEAD ↔ M = "HEAD".toList) ∧
    (parseMethod M = .TRACE ↔ M = "TRACE".toList) ∧
    (parseMethod M = .CONNECT ↔ M = "CONNECT".toList) ∧
    (parseMethod M = .UNKNOWN ↔
      M ∉ ["GET".toList, "POST".toList, "PUT".toList, "DELETE".toList, "PATCH".toList,
        "OPTIONS".toList, "HEAD".toList, "TRACE".toList, "CONNECT".toList]) := by
  unfold parseMethod
  split_ifs with h1 h2 h3 h4 h5 h6 h7 h8 h9
  all_goals simp_all

theorem tokens_replicate_space (k : Nat) (rest : Str) :
    tokens (List.replicate k ' ' ++ rest) = tokens rest := by
  induction k with
  | zero => simp
  | succ k ih =>
    have hs : isspace ' ' = true := by decide
    simp [List.replicate_succ, tokens, hs, ih]

theorem tokens_token_append (tok : Str) (s : Char) (rest : Str) (hne : tok ≠ [])
    (htok : ∀ c ∈ tok, isspace c = false) (hs : isspace s = true) :
    tokens (tok ++ s :: rest) = tok :: tokens rest := by
  cases tok with
  | nil => exact absurd rfl hne
  | cons c cs =>
    have hc : isspace c = false := htok c (List.mem_cons_self _ _)
    have hcs : ∀ a ∈ cs, (fun x => !isspace x) a = true := fun a ha => by
      simp [htok a (List.mem_cons_of_mem _ ha)]
    rw [List.cons_append, tokens_cons_nonspace c _ hc, List.takeWhile_append_of_pos hcs,
      List.dropWhile_append_of_pos hcs]
    simp [List.takeWhile, List.dropWhile, hs, tokens]

theorem tokens_request_line (M U V : Str) (n1 n2 : Nat)
    (hM : M ≠ [] ∧ ∀ c ∈ M, isspace c = false) (hU : U ≠ [] ∧ ∀ c ∈ U, isspace c = false)
    (hV : V ≠ [] ∧ ∀ c ∈ V, isspace c = false) :
    tokens (M ++ List.replicate (n1 + 1) ' ' ++ U ++ List.replicate (n2 + 1) ' ' ++ V ++ ['\r'])
      = [M, U, V] := by
  have hs : isspace ' ' = true := by decide
  have hr : isspace '\r' = true := by decide
  have e : M ++ List.replicate (n1 + 1) ' ' ++ U ++ List.replicate (n2 + 1) ' ' ++ V ++ ['\r']
      = M ++ ' ' :: (List.replicate n1 ' ' ++ (U ++ ' ' :: (List.replicate n2 ' ' ++ (V ++ '\r' :: [])))) := by
    simp [List.replicate_succ]
  rw [e, tokens_token_append M ' ' _ hM.1 hM.2 hs, tokens_replicate_space,
    tokens_token_append U ' ' _ hU.1 hU.2 hs, tokens_replicate_space,
    tokens_token_append V '\r' _ hV.1 hV.2 hr]
  simp [tokens]

theorem getlines_head (b : Str) (hne : b ≠ []) :
    ∃ ls, getlines b = b.takeWhile (fun c => c != '\n') :: ls := by
  induction b with
  | nil => exact absurd rfl hne
  | cons c cs ih =>
    by_cases hc : c = '\n'
    · exact ⟨getlines cs, by simp [getlines, hc, List.takeWhile]⟩
    · have hc2 : (c != '\n') = true := by simpa using hc
      cases cs with
      | nil => exact ⟨[], by simp [getlines, hc, List.takeWhile, hc2]⟩
      | cons d ds =>
        obtain ⟨ls, e⟩ := ih (by simp)
        refine ⟨ls, ?_⟩
        rw [getlines]
        simp only [hc, if_false, e]
        have t : List.takeWhile (fun x => x != '\n') (c :: d :: ds)
            = c :: List.takeWhile (fun x => x != '\n') (d :: ds) :=
          List.takeWhile_cons_of_pos hc2
        rw [t]

/-! ## Status codes and reachable responses -/

theorem getStatusMessage_unknown (code : Int) (h : code ∉ statusTableCodes) :
    Response.getStatusMessage code = "Unknown Status".toList := by
  simp only [statusTableCodes, List.mem_cons, List.mem_singleton, not_or, List.not_mem_nil,
    or_false] at h
  simp only [Response.getStatusMessage]
  simp [h]

theorem reachable_statusMessage (r : Response) (h : Response.Reachable r) :
    r.statusMessage = Response.getStatusMessage r.statusCode := by
  induction h with
  | init => decide
  | setStatusCode r code _ _ => rfl
  | addHeader r key value _ ih => exact ih
  | setBody r responseBody _ ih => exact ih
  | sendFile r fs filePath _ ih =>
    cases hf : fs filePath with
    | none => rw [sendFile_of_none fs r filePath hf]; rfl
    | some content => rw [sendFile_of_some fs r filePath content hf]; exact ih

/-! ## The serialised response -/

theorem toString_eq (r : Response) :
    r.toString =
      ("HTTP/1.1 ".toList ++ decimalInt r.statusCode ++ [' '] ++ r.statusMessage ++ ['\r', '\n']
        ++ (r.headers.entries.map fun e => e.1 ++ [':', ' '] ++ e.2 ++ ['\r', '\n']).flatten
        ++ ['\r', '\n']) ++ r.body := by
  have fold : ∀ (es : List (Str × Str)) (acc : Str),
      es.foldl (fun os header => put (put (put (put os header.1) [':', ' ']) header.2) ['\r', '\n'])
          acc
        = acc ++ (es.map fun e => e.1 ++ [':', ' '] ++ e.2 ++ ['\r', '\n']).flatten := by
    intro es
    induction es with
    | nil => intro acc; simp
    | cons e es ih =>
      intro acc
      rw [List.foldl_cons, ih]
      simp [put, List.append_assoc]
  rw [Response.toString, fold]
  simp [put, List.append_assoc]

theorem beforeBody_eq (r : Response) :
    r.beforeBody =
      "HTTP/1.1 ".toList ++ decimalInt r.statusCode ++ [' '] ++ r.statusMessage ++ ['\r', '\n']
        ++ (r.headers.entries.map fun e => e.1 ++ [':', ' '] ++ e.2 ++ ['\r', '\n']).flatten
        ++ ['\r', '\n'] := by
  rw [Response.beforeBody, toString_eq, List.length_append, Nat.add_sub_cancel,
    List.take_left]

theorem digitChar_ne_cr : ∀ n, n < 10 → Nat.digitChar n ≠ '\r' := by decide

theorem toDigitsCore_no_cr (fuel : Nat) :
    ∀ (n : Nat) (ds : List Char), '\r' ∉ ds → '\r' ∉ Nat.toDigitsCore 10 fuel n ds := by
  induction fuel with
  | zero => intro n ds h; simpa [Nat.toDigitsCore] using h
  | succ fuel ih =>
    intro n ds h
    have hd : '\r' ∉ Nat.digitChar (n % 10) :: ds := by
      simp only [List.mem_cons, not_or]
      exact ⟨fun e => digitChar_ne_cr _ (Nat.mod_lt n (by decide)) e.symm, h⟩
    rw [Nat.toDigitsCore]
    split
    · exact hd
    · exact ih _ _ hd

theorem decimal_no_cr (n : Nat) : '\r' ∉ decimal n := by
  simp only [decimal, Nat.repr, Nat.toDigits, List.asString]
  exact toDigitsCore_no_cr _ _ _ (by simp)

theorem decimalInt_no_cr (i : Int) : '\r' ∉ decimalInt i := by
  cases i with
  | ofNat n => exact decimal_no_cr n
  | negSucc n =>
    simp only [decimalInt, List.mem_cons, not_or]
    exact ⟨by decide, decimal_no_cr _⟩

theorem getStatusMessage_no_cr (code : Int) : '\r' ∉ Response.getStatusMessage code := by
  by_cases h : code ∈ statusTableCodes
  · have key : ∀ c ∈ statusTableCodes, '\r' ∉ Response.getStatusMessage c := by decide
    exact key code h
  · rw [getStatusMessage_unknown code h]
    decide

/-! ## Occurrences of the header terminator -/

theorem count_cons_ne (c : Char) (s : Str) (hc : c ≠ '\r') :
    countOccurrences CRLFCRLF (c :: s) = countOccurrences CRLFCRLF s := by
  have h : (c == '\r') = false := by simpa using hc
  have h2 : ('\r' == c) = false := by simpa using fun e : '\r' = c => hc e.symm
  simp [countOccurrences, CRLFCRLF, List.isPrefixOf, h2]

theorem count_append_no_cr (l s : Str) (hl : '\r' ∉ l) :
    countOccurrences CRLFCRLF (l ++ s) = countOccurrences CRLFCRLF s := by
  induction l with
  | nil => rfl
  | cons c cs ih =>
    have hc : c ≠ '\r' := fun e => hl (by simp [e])
    have hcs : '\r' ∉ cs := fun e => hl (List.mem_cons_of_mem _ e)
    rw [List.cons_append, count_cons_ne _ _ hc, ih hcs]

theorem count_crlf_cons (c : Char) (s : Str) (hc : c ≠ '\r') :
    countOccurrences CRLFCRLF ('\r' :: '\n' :: c :: s) = countOccurrences CRLFCRLF (c :: s) := by
  have h2 : ('\r' == c) = false := by simpa using fun e : '\r' = c => hc e.symm
  have h3 : countOccurrences CRLFCRLF ('\n' :: c :: s) = countOccurrences CRLFCRLF (c :: s) :=
    count_cons_ne _ _ (by decide)
  rw [countOccurrences, h3]
  simp [CRLFCRLF, List.isPrefixOf, h2]

theorem count_lines (lines : List Str) (hne : lines ≠ [])
    (h : ∀ l ∈ lines, l ≠ [] ∧ '\r' ∉ l) :
    countOccurrences CRLFCRLF ((lines.map (fun l => l ++ ['\r', '\n'])).flatten ++ ['\r', '\n'])
      = 1 := by
  induction lines with
  | nil => exact absurd rfl hne
  | cons l ls ih =>
    have hl := h l (List.mem_cons_self _ _)
    have e : (List.map (fun l => l ++ ['\r', '\n']) (l :: ls)).flatten ++ ['\r', '\n']
        = l ++ ('\r' :: '\n' :: ((ls.map (fun l => l ++ ['\r', '\n'])).flatten ++ ['\r', '\n'])) := by
      simp
    rw [e, count_append_no_cr _ _ hl.2]
    cases ls with
    | nil => decide
    | cons m ms =>
      have hm := h m (List.mem_cons_of_mem _ (List.mem_cons_self _ _))
      have ih2 := ih (by simp) (fun x hx => h x (List.mem_cons_of_mem _ hx))
      cases m with
      | nil => exact absurd rfl hm.1
      | cons c cs =>
        have hc : c ≠ '\r' := fun e0 => hm.2 (by simp [e0])
        have e2 : (List.map (fun l => l ++ ['\r', '\n']) ((c :: cs) :: ms)).flatten ++ ['\r', '\n']
            = c :: (cs ++ ['\r', '\n'] ++ (ms.map (fun l => l ++ ['\r', '\n'])).flatten
                ++ ['\r', '\n']) := by
          simp
        rw [e2] at ih2 ⊢
        rw [count_crlf_cons _ _ hc]
        exact ih2

theorem suffix_lines (lines : List Str) (hne : lines ≠ []) :
    CRLFCRLF <:+ (lines.map (fun l => l ++ ['\r', '\n'])).flatten ++ ['\r', '\n'] := by
  obtain ⟨init, last, rfl⟩ : ∃ init last, lines = init ++ [last] :=
    ⟨lines.dropLast, lines.getLast hne, (List.dropLast_append_getLast hne).symm⟩
  refine ⟨(init.map (fun l => l ++ ['\r', '\n'])).flatten ++ last, ?_⟩
  simp [CRLFCRLF]

theorem beforeBody_lines (r : Response) :
    r.beforeBody =
      ((("HTTP/1.1 ".toList ++ decimalInt r.statusCode ++ [' '] ++ r.statusMessage)
          :: r.headers.entries.map (fun e => e.1 ++ [':', ' '] ++ e.2)).map
        (fun l => l ++ ['\r', '\n'])).flatten ++ ['\r', '\n'] := by
  rw [beforeBody_eq]
  simp [List.map_map, Function.comp_def]

/-! ## The connection handler -/

theorem buildResponse_of_none (serverRoot : Str) (fs : FileSystem) (request : Request)
    (h : fs (serverRoot ++ request.uri) = none) :
    Server.buildResponse serverRoot fs request
      = ⟨404, "Not Found".toList, HeaderMap.empty, "404 Not Found".toList⟩ := by
  rw [Server.buildResponse]
  simp only [sendFile_of_none fs _ _ h]
  rfl

theorem buildResponse_of_some (serverRoot : Str) (fs : FileSystem) (request : Request)
    (content : Str) (h : fs (serverRoot ++ request.uri) = some content) :
    Server.buildResponse serverRoot fs request
      = ⟨200, "OK".toList,
          (HeaderMap.empty.assign "Content-Type".toList
            (Response.contentTypeOf (serverRoot ++ request.uri))).assign
              "Content-Length".toList (decimal content.length),
          content⟩ := by
  rw [Server.buildResponse]
  simp only [sendFile_of_some fs _ _ content h]
  rfl

theorem handleRequest_eq (serverRoot : Str) (fs : FileSystem) (garbage : METHOD)
    (rawRequest : Str) (hlen : rawRequest.length < SIZE_MOD) :
    Request.ofRaw garbage rawRequest
        = .ok (parseSpec (Request.uninitialized garbage) rawRequest) ∧
    Server.handleRequest serverRoot fs garbage rawRequest
        = .ok (Server.buildResponse serverRoot fs
            (parseSpec (Request.uninitialized garbage) rawRequest)) ∧
    Server.responseBytes serverRoot fs garbage rawRequest
        = .ok (Server.buildResponse serverRoot fs
            (parseSpec (Request.uninitialized garbage) rawRequest)).toString := by
  have e : Request.ofRaw garbage rawRequest
      = .ok (parseSpec (Request.uninitialized garbage) rawRequest) :=
    parse_eq_parseSpec _ _ hlen
  refine ⟨e, ?_, ?_⟩
  · simp [Server.handleRequest, e, bind, Except.bind, pure, Except.pure]
  · simp [Server.responseBytes, Server.handleRequest, e, bind, Except.bind, pure, Except.pure]

theorem buildResponse_congr (serverRoot : Str) (fs : FileSystem) (q1 q2 : Request)
    (h : q1.uri = q2.uri) :
    Server.buildResponse serverRoot fs q1 = Server.buildResponse serverRoot fs q2 := by
  simp only [Server.buildResponse, h]

/-! ## Header lines up to the terminator -/

theorem getlines_block (ls : List Str) (rest : Str) (h : ∀ x ∈ ls, '\n' ∉ x) :
    getlines ((ls.map (fun x => x ++ ['\n'])).flatten ++ rest) = ls ++ getlines rest := by
  induction ls with
  | nil => simp
  | cons x xs ih =>
    have e : (List.map (fun x => x ++ ['\n']) (x :: xs)).flatten ++ rest
        = x ++ '\n' :: ((xs.map (fun x => x ++ ['\n'])).flatten ++ rest) := by
      simp
    rw [e, getlines_append_lf _ _ (h x (List.mem_cons_self _ _)),
      ih (fun y hy => h y (List.mem_cons_of_mem _ hy))]
    simp

theorem parseSpec_headers (r : Request) (first : Str) (hdrs : List Str) (rest : Str)
    (hfirst : '\n' ∉ first) (hh : ∀ h ∈ hdrs, '\n' ∉ h ∧ h ≠ ['\r']) :
    (parseSpec r (first ++ ['\n'] ++ (hdrs.map (fun h => h ++ ['\n'])).flatten
        ++ ['\r', '\n'] ++ rest)).headers
      = hdrs.foldl headerStep r.headers := by
  have e : first ++ ['\n'] ++ (hdrs.map (fun h => h ++ ['\n'])).flatten ++ ['\r', '\n'] ++ rest
      = first ++ '\n' :: ((hdrs.map (fun h => h ++ ['\n'])).flatten ++ (['\r'] ++ '\n' :: rest)) := by
    simp
  have h2 : '\n' ∉ (['\r'] : Str) := by simp
  have hg : getlines (first ++ ['\n'] ++ (hdrs.map (fun h => h ++ ['\n'])).flatten
      ++ ['\r', '\n'] ++ rest) = first :: (hdrs ++ (['\r'] :: getlines rest)) := by
    rw [e, getlines_append_lf _ _ hfirst, getlines_block _ _ (fun x hx => (hh x hx).1),
      getlines_append_lf _ _ h2]
  have hp : ∀ l ∈ hdrs, (fun l : Str => l != ['\r']) l = true := by
    intro l hl
    simpa using (hh l hl).2
  have ht : List.takeWhile (fun l : Str => l != ['\r']) (hdrs ++ (['\r'] :: getlines rest))
      = hdrs := by
    rw [List.takeWhile_append_of_pos hp]
    simp [List.takeWhile]
  simp only [parseSpec, hg, List.tail_cons, ht, parseRequestLine_eq]

theorem get?_foldl_headerStep_other (K : Str) (post : List Str) :
    ∀ m : HeaderMap,
      (∀ p ∈ post, ':' ∈ p → p.takeWhile (fun c => c != ':') ≠ K) →
      (post.foldl headerStep m).get? K = m.get? K := by
  induction post with
  | nil => intro m _; rfl
  | cons p ps ih =>
    intro m h
    rw [List.foldl_cons, ih _ (fun x hx => h x (List.mem_cons_of_mem _ hx))]
    by_cases hc : ':' ∈ p
    · have hne := h p (List.mem_cons_self _ _) hc
      simp only [headerStep, hc, if_true]
      exact HeaderMap.get?_assign_other _ _ _ _ (fun e => hne e.symm)
    · simp only [headerStep, hc, if_false]

theorem get?_foldl_headerStep_last (m : HeaderMap) (pre : List Str) (l : Str) (post : List Str)
    (hl : ':' ∈ l)
    (hpost : ∀ p ∈ post, ':' ∈ p →
      p.takeWhile (fun c => c != ':') ≠ l.takeWhile (fun c => c != ':')) :
    ((pre ++ l :: post).foldl headerStep m).get? (l.takeWhile (fun c => c != ':'))
      = some (trimBlanks (l.dropWhile (fun c => c != ':')).tail) := by
  rw [List.foldl_append, List.foldl_cons, get?_foldl_headerStep_other _ _ _ hpost]
  simp only [headerStep, hl, if_true]
  exact HeaderMap.get?_assign_same _ _ _

/-! ## The receive loop -/

theorem getlines_no_lf (l : Str) (h : '\n' ∉ l) :
    getlines l = if l = [] then [] else [l] := by
  induction l with
  | nil => simp [getlines]
  | cons c cs ih =>
    have hc : c ≠ '\n' := fun e => h (by simp [e])
    have hcs : '\n' ∉ cs := fun e => h (List.mem_cons_of_mem _ e)
    rw [getlines]
    simp only [hc, if_false, ih hcs]
    cases cs <;> simp

theorem parseSpec_no_terminator (r : Request) (first : Str) (lines : List Str) (last : Str)
    (hfirst : '\n' ∉ first)
    (hlines : ∀ l ∈ lines, '\n' ∉ l ∧ '\r' ∉ l)
    (hlast : '\n' ∉ last ∧ '\r' ∉ last) :
    (parseSpec r (first ++ ['\n'] ++ (lines.map (fun l => l ++ ['\n'])).flatten ++ last)).headers
        = (lines ++ (if last = [] then [] else [last])).foldl headerStep r.headers ∧
    (parseSpec r (first ++ ['\n'] ++ (lines.map (fun l => l ++ ['\n'])).flatten ++ last)).body
        = r.body.dropLast := by
  have e : first ++ ['\n'] ++ (lines.map (fun l => l ++ ['\n'])).flatten ++ last
      = first ++ '\n' :: ((lines.map (fun l => l ++ ['\n'])).flatten ++ last) := by
    simp
  have hg : getlines (first ++ ['\n'] ++ (lines.map (fun l => l ++ ['\n'])).flatten ++ last)
      = first :: (lines ++ (if last = [] then [] else [last])) := by
    rw [e, getlines_append_lf _ _ hfirst, getlines_block _ _ (fun x hx => (hlines x hx).1),
      getlines_no_lf _ hlast.1]
  have hp : ∀ l ∈ lines ++ (if last = [] then [] else [last]),
      (fun l : Str => l != ['\r']) l = true := by
    intro l hl
    have hcr : '\r' ∉ l := by
      rcases List.mem_append.1 hl with h1 | h1
      · exact (hlines l h1).2
      · by_cases h0 : last = []
        · simp [h0] at h1
        · simp only [h0, if_false, List.mem_singleton] at h1
          rw [h1]; exact hlast.2
    have : l ≠ ['\r'] := fun e0 => hcr (by simp [e0])
    simpa using this
  have ht : List.takeWhile (fun l : Str => l != ['\r'])
      (lines ++ (if last = [] then [] else [last]))
      = lines ++ (if last = [] then [] else [last]) :=
    List.takeWhile_eq_self_iff.2 hp
  have hd : List.dropWhile (fun l : Str => l != ['\r'])
      (lines ++ (if last = [] then [] else [last])) = [] :=
    List.dropWhile_eq_nil_iff.2 hp
  simp only [parseSpec, hg, List.tail_cons, ht, hd, parseRequestLine_eq]
  simp

theorem parseSpec_single_line (r : Request) (rawRequest : Str) (h : '\n' ∉ rawRequest) :
    (parseSpec r rawRequest).headers = r.headers ∧
    (parseSpec r rawRequest).body = r.body.dropLast := by
  rw [parseSpec, getlines_no_lf _ h]
  by_cases h0 : rawRequest = []
  · simp [h0]
  · simp [h0, parseRequestLine_eq]

theorem isSome_get?_foldl_headerStep (K : Str) (hdrs : List Str) :
    ∀ m : HeaderMap, (m.get? K).isSome = true →
      ((hdrs.foldl headerStep m).get? K).isSome = true := by
  induction hdrs with
  | nil => intro m h; exact h
  | cons p ps ih =>
    intro m h
    rw [List.foldl_cons]
    refine ih _ ?_
    by_cases hc : ':' ∈ p
    · simp only [headerStep, hc, if_true]
      by_cases hk : K = p.takeWhile (fun c => c != ':')
      · rw [hk, HeaderMap.get?_assign_same]; rfl
      · rw [HeaderMap.get?_assign_other _ _ _ _ hk]; exact h
    · simp only [headerStep, hc, if_false]; exact h

theorem isSome_get?_of_mem (hdrs : List Str) :
    ∀ (m : HeaderMap) (l : Str), l ∈ hdrs → ':' ∈ l →
      ((hdrs.foldl headerStep m).get? (l.takeWhile (fun c => c != ':'))).isSome = true := by
  induction hdrs with
  | nil => intro m l hl; exact absurd hl (by simp)
  | cons p ps ih =>
    intro m l hl hc
    rw [List.foldl_cons]
    rcases List.mem_cons.1 hl with rfl | hl
    · refine isSome_get?_foldl_headerStep _ ps _ ?_
      simp only [headerStep, hc, if_true]
      rw [HeaderMap.get?_assign_same]; rfl
    · exact ih _ l hl hc

theorem headerStep_eq :
    headerStep = fun m line =>
      if ':' ∈ line then
        m.assign (line.takeWhile (fun c => c != ':'))
          (((line.dropWhile (fun c => c != ':')).tail.dropWhile
            (fun c => c = ' ' || c = '\t')).rdropWhile (fun c => c = ' ' || c = '\t'))
      else m := by
  have hb : isBlank = fun c => (decide (c = ' ') || decide (c = '\t')) := by
    funext c
    simp [isBlank]
  funext m line
  simp only [headerStep, trimBlanks, hb]

/-! # Properties of the specification -/

/-! ## Request parsing -/

/-- C1: for the request `GET / HTTP/1.1`, `Host: x`, blank line, the value stored under
`Host` is `x` followed by a carriage return, not `x`. -/
theorem parse_header_value_keeps_cr :
    ∃ q, Request.parse Request.default "GET / HTTP/1.1\r\nHost: x\r\n\r\n".toList = .ok q ∧
      q.headers.entries = [("Host".toList, ['x', '\r'])] ∧
      q.headers.get? "Host".toList = some ['x', '\r'] ∧
      q.headers.get? "Host".toList ≠ some ['x'] :=
  ⟨⟨.GET, ['/'], HeaderMap.empty.assign "Host".toList ['x', '\r'], []⟩, rfl, rfl, rfl, by decide⟩

/-- C2: for a request line, header lines that each hold a colon, the blank line and then
body bytes `B`, all lines ended by CR LF, the parsed body is `B`, less its last character
when that one is a line feed; every other byte of `B` is kept. -/
theorem parse_body (r : Request) (requestLine : Str) (headerLines : List Str) (B : Str)
    (hbody : r.body = [])
    (hreq : '\n' ∉ requestLine)
    (hhdr : ∀ h ∈ headerLines, ':' ∈ h ∧ '\n' ∉ h)
    (hlen : (requestLine ++ ['\r', '\n'] ++ (headerLines.map (fun h => h ++ ['\r', '\n'])).flatten
      ++ ['\r', '\n'] ++ B).length < SIZE_MOD) :
    ∃ q, Request.parse r (requestLine ++ ['\r', '\n']
          ++ (headerLines.map (fun h => h ++ ['\r', '\n'])).flatten ++ ['\r', '\n'] ++ B) = .ok q ∧
      q.body = if B.getLast? = some '\n' then B.dropLast else B := by
  refine ⟨_, parse_eq_parseSpec r _ hlen, ?_⟩
  have e : requestLine ++ ['\r', '\n'] ++ (headerLines.map (fun h => h ++ ['\r', '\n'])).flatten
      ++ ['\r', '\n'] ++ B
      = (requestLine ++ ['\r']) ++ '\n' ::
          ((headerLines.map (fun h => h ++ ['\r', '\n'])).flatten ++ (['\r'] ++ '\n' :: B)) := by
    simp
  have h1 : '\n' ∉ requestLine ++ ['\r'] := by simp [hreq]
  have h2 : '\n' ∉ (['\r'] : Str) := by simp
  have hg : getlines (requestLine ++ ['\r', '\n']
      ++ (headerLines.map (fun h => h ++ ['\r', '\n'])).flatten ++ ['\r', '\n'] ++ B)
      = (requestLine ++ ['\r']) :: (headerLines.map (fun h => h ++ ['\r']) ++ (['\r'] :: getlines B)) := by
    rw [e, getlines_append_lf _ _ h1, getlines_header_block _ _ (fun x hx => (hhdr x hx).2),
      getlines_append_lf _ _ h2]
  have hp : ∀ l ∈ headerLines.map (fun h => h ++ ['\r']), (fun l : Str => l != ['\r']) l = true := by
    intro l hl
    obtain ⟨h, hh, rfl⟩ := List.mem_map.1 hl
    have hne : h ≠ [] := fun e0 => by have := (hhdr h hh).1; simp [e0] at this
    cases h with
    | nil => exact absurd rfl hne
    | cons a t => cases t <;> simp
  simp only [parseSpec, hg, List.tail_cons, List.dropWhile_append_of_pos hp]
  have hd : List.dropWhile (fun l : Str => l != ['\r']) (['\r'] :: getlines B)
      = ['\r'] :: getlines B := by
    simp [List.dropWhile]
  rw [hd, List.tail_cons, parseRequestLine_eq]
  simp only [hbody, List.nil_append]
  exact dropLast_flatten_getlines B

theorem parse_body_witness :
    (Request.default.body = []) ∧ ('\n' ∉ "GET / HTTP/1.1".toList) ∧
    (∀ h ∈ ["Host: x".toList, "Accept: */*".toList], ':' ∈ h ∧ '\n' ∉ h) ∧
    ∃ q, Request.parse Request.default ("GET / HTTP/1.1".toList ++ ['\r', '\n']
          ++ (["Host: x".toList, "Accept: */*".toList].map (fun h => h ++ ['\r', '\n'])).flatten
          ++ ['\r', '\n'] ++ "a\r\n\nb\n".toList) = .ok q ∧
      q.body = if "a\r\n\nb\n".toList.getLast? = some '\n' then "a\r\n\nb\n".toList.dropLast
        else "a\r\n\nb\n".toList :=
  ⟨rfl, by decide, by decide,
    parse_body Request.default "GET / HTTP/1.1".toList ["Host: x".toList, "Accept: */*".toList]
      "a\r\n\nb\n".toList rfl (by decide) (by decide) (by decide)⟩

/-- C3: when the first line is three tokens separated by spaces and ended by CR LF, the
URI is the second token, character for character, and the method is the enumerator whose
name the first token spells exactly, `UNKNOWN` when it spells none of the nine. -/
theorem parse_request_line (r : Request) (M U V : Str) (n1 n2 : Nat) (rest : Str)
    (hM : M ≠ [] ∧ ∀ c ∈ M, isspace c = false) (hU : U ≠ [] ∧ ∀ c ∈ U, isspace c = false)
    (hV : V ≠ [] ∧ ∀ c ∈ V, isspace c = false)
    (hlen : (M ++ List.replicate (n1 + 1) ' ' ++ U ++ List.replicate (n2 + 1) ' ' ++ V
      ++ ['\r', '\n'] ++ rest).length < SIZE_MOD) :
    ∃ q, Request.parse r (M ++ List.replicate (n1 + 1) ' ' ++ U ++ List.replicate (n2 + 1) ' '
          ++ V ++ ['\r', '\n'] ++ rest) = .ok q ∧
      q.uri = U ∧
      (q.method = .GET ↔ M = "GET".toList) ∧
      (q.method = .POST ↔ M = "POST".toList) ∧
      (q.method = .PUT ↔ M = "PUT".toList) ∧
      (q.method = .DELETE ↔ M = "DELETE".toList) ∧
      (q.method = .PATCH ↔ M = "PATCH".toList) ∧
      (q.method = .OPTIONS ↔ M = "OPTIONS".toList) ∧
      (q.method = .HEAD ↔ M = "HEAD".toList) ∧
      (q.method = .TRACE ↔ M = "TRACE".toList) ∧
      (q.method = .CONNECT ↔ M = "CONNECT".toList) ∧
      (q.method = .UNKNOWN ↔
        M ∉ ["GET".toList, "POST".toList, "PUT".toList, "DELETE".toList, "PATCH".toList,
          "OPTIONS".toList, "HEAD".toList, "TRACE".toList, "CONNECT".toList]) := by
  refine ⟨_, parse_eq_parseSpec r _ hlen, ?_⟩
  have hlf : ∀ T : Str, (∀ c ∈ T, isspace c = false) → '\n' ∉ T := fun T hT hm => by
    have := hT _ hm
    exact absurd this (by decide)
  have hline : '\n' ∉ M ++ List.replicate (n1 + 1) ' ' ++ U ++ List.replicate (n2 + 1) ' ' ++ V
      ++ ['\r'] := by
    simp only [List.mem_append, List.mem_replicate, not_or]
    exact ⟨⟨⟨⟨⟨hlf M hM.2, by simp⟩, hlf U hU.2⟩, by simp⟩, hlf V hV.2⟩, by simp⟩
  have e : M ++ List.replicate (n1 + 1) ' ' ++ U ++ List.replicate (n2 + 1) ' ' ++ V
      ++ ['\r', '\n'] ++ rest
      = (M ++ List.replicate (n1 + 1) ' ' ++ U ++ List.replicate (n2 + 1) ' ' ++ V ++ ['\r'])
        ++ '\n' :: rest := by
    simp
  have hq : (parseSpec r (M ++ List.replicate (n1 + 1) ' ' ++ U ++ List.replicate (n2 + 1) ' '
      ++ V ++ ['\r', '\n'] ++ rest)).method = parseMethod M ∧
      (parseSpec r (M ++ List.replicate (n1 + 1) ' ' ++ U ++ List.replicate (n2 + 1) ' '
      ++ V ++ ['\r', '\n'] ++ rest)).uri = U := by
    rw [e]
    simp only [parseSpec, getlines_append_lf _ _ hline, parseRequestLine_eq,
      tokens_request_line M U V n1 n2 hM hU hV]
    exact ⟨rfl, rfl⟩
  rw [hq.1, hq.2]
  exact ⟨rfl, parseMethod_table M⟩

theorem parse_request_line_witness :
    (("get".toList ≠ [] ∧ ∀ c ∈ "get".toList, isspace c = false) ∧
     ("/a%20b/../c".toList ≠ [] ∧ ∀ c ∈ "/a%20b/../c".toList, isspace c = false) ∧
     ("HTTP/1.1".toList ≠ [] ∧ ∀ c ∈ "HTTP/1.1".toList, isspace c = false)) ∧
    ∃ q, Request.parse Request.default ("get".toList ++ List.replicate (0 + 1) ' '
          ++ "/a%20b/../c".toList ++ List.replicate (1 + 1) ' '
          ++ "HTTP/1.1".toList ++ ['\r', '\n'] ++ "Host: x\r\n\r\n".toList) = .ok q ∧
      q.uri = "/a%20b/../c".toList ∧
      (q.method = .GET ↔ "get".toList = "GET".toList) ∧
      (q.method = .POST ↔ "get".toList = "POST".toList) ∧
      (q.method = .PUT ↔ "get".toList = "PUT".toList) ∧
      (q.method = .DELETE ↔ "get".toList = "DELETE".toList) ∧
      (q.method = .PATCH ↔ "get".toList = "PATCH".toList) ∧
      (q.method = .OPTIONS ↔ "get".toList = "OPTIONS".toList) ∧
      (q.method = .HEAD ↔ "get".toList = "HEAD".toList) ∧
      (q.method = .TRACE ↔ "get".toList = "TRACE".toList) ∧
      (q.method = .CONNECT ↔ "get".toList = "CONNECT".toList) ∧
      (q.method = .UNKNOWN ↔
        "get".toList ∉ ["GET".toList, "POST".toList, "PUT".toList, "DELETE".toList,
          "PATCH".toList, "OPTIONS".toList, "HEAD".toList, "TRACE".toList, "CONNECT".toList]) :=
  ⟨⟨by decide, by decide, by decide⟩,
    parse_request_line Request.default "get".toList "/a%20b/../c".toList "HTTP/1.1".toList 0 1
      "Host: x\r\n\r\n".toList (by decide) (by decide) (by decide) (by decide)⟩

/-- C4: on every string whose size fits `size_t`, `Request::parse` returns a request: no call
of `substr` or `erase` is out of range, `pop_back` is never applied to an empty string, and
both loops end. -/
theorem parse_total (r : Request) (rawRequest : Str) (hlen : rawRequest.length < SIZE_MOD) :
    ∃ q, Request.parse r rawRequest = .ok q :=
  ⟨_, parse_eq_parseSpec r rawRequest hlen⟩

theorem parse_total_witness :
    "GET\n:\r\n: \t \r\nA:\n\r".toList.length < SIZE_MOD ∧
    ∃ q, Request.parse Request.default "GET\n:\r\n: \t \r\nA:\n\r".toList = .ok q :=
  ⟨by decide, parse_total Request.default "GET\n:\r\n: \t \r\nA:\n\r".toList (by decide)⟩

/-- C5: on the empty input the parsing constructor leaves `method` at whatever value its
storage held, not at `UNKNOWN`; URI, header map and body are empty. -/
theorem ofRaw_empty (garbage : METHOD) :
    Request.ofRaw garbage [] = .ok ⟨garbage, [], HeaderMap.empty, []⟩ := rfl

/-- C6, as stated, fails: the first line `GET /index.html` has two tokens, and the request
has method `GET` and URI `/index.html`. -/
theorem parse_two_tokens :
    (tokens ("GET /index.html".toList.takeWhile (fun c => c != '\n'))).length < 3 ∧
    ∃ q, Request.parse Request.default "GET /index.html".toList = .ok q ∧
      ¬ (q.method = .UNKNOWN ∧ q.uri = []) :=
  ⟨by decide, ⟨.GET, "/index.html".toList, HeaderMap.empty, []⟩, rfl, by decide⟩

/-- C6, amended: on a non-empty input whose first line has fewer than three tokens, the
method is read off the first token and is `UNKNOWN` when there is none, and the URI is the second
token and is empty when there is none. -/
theorem parse_short_request_line (r : Request) (rawRequest : Str) (hne : rawRequest ≠ [])
    (hlen : rawRequest.length < SIZE_MOD) :
    ∃ q, Request.parse r rawRequest = .ok q ∧
      (tokens (rawRequest.takeWhile (fun c => c != '\n')) = [] →
        q.method = .UNKNOWN ∧ q.uri = []) ∧
      (∀ M, tokens (rawRequest.takeWhile (fun c => c != '\n')) = [M] →
        q.method = parseMethod M ∧ q.uri = []) ∧
      (∀ M U, tokens (rawRequest.takeWhile (fun c => c != '\n')) = [M, U] →
        q.method = parseMethod M ∧ q.uri = U) := by
  refine ⟨_, parse_eq_parseSpec r _ hlen, ?_⟩
  obtain ⟨ls, e⟩ := getlines_head rawRequest hne
  simp only [parseSpec, e, parseRequestLine_eq]
  refine ⟨fun h => ?_, fun M h => ?_, fun M U h => ?_⟩ <;> rw [h] <;> exact ⟨rfl, rfl⟩

theorem parse_short_request_line_witness :
    "GET /index.html".toList ≠ [] ∧ "GET /index.html".toList.length < SIZE_MOD ∧
    ∃ q, Request.parse Request.default "GET /index.html".toList = .ok q ∧
      (tokens ("GET /index.html".toList.takeWhile (fun c => c != '\n')) = [] →
        q.method = .UNKNOWN ∧ q.uri = []) ∧
      (∀ M, tokens ("GET /index.html".toList.takeWhile (fun c => c != '\n')) = [M] →
        q.method = parseMethod M ∧ q.uri = []) ∧
      (∀ M U, tokens ("GET /index.html".toList.takeWhile (fun c => c != '\n')) = [M, U] →
        q.method = parseMethod M ∧ q.uri = U) :=
  ⟨by decide, by decide,
    parse_short_request_line Request.default "GET /index.html".toList (by decide) (by decide)⟩

/-! ## Response building -/

/-- C7: when the path does not open, `sendFile` returns false and leaves status 404
"Not Found", the body "404 Not Found" and the header map as it was. -/
theorem sendFile_unopenable (fs : FileSystem) (r : Response) (filePath : Str)
    (h : fs filePath = none) :
    (Response.sendFile fs r filePath).1 = false ∧
    (Response.sendFile fs r filePath).2.statusCode = 404 ∧
    (Response.sendFile fs r filePath).2.statusMessage = "Not Found".toList ∧
    (Response.sendFile fs r filePath).2.body = "404 Not Found".toList ∧
    (Response.sendFile fs r filePath).2.headers = r.headers := by
  rw [sendFile_of_none fs r filePath h]
  exact ⟨rfl, rfl, rfl, rfl, rfl⟩

theorem sendFile_unopenable_witness :
    (fun _ => none : FileSystem) ['x'] = none ∧
    (Response.sendFile (fun _ => none) (Response.default.addHeader ['A'] ['b']) ['x']).1 = false ∧
    (Response.sendFile (fun _ => none) (Response.default.addHeader ['A'] ['b']) ['x']).2.statusCode = 404 ∧
    (Response.sendFile (fun _ => none) (Response.default.addHeader ['A'] ['b']) ['x']).2.statusMessage
      = "Not Found".toList ∧
    (Response.sendFile (fun _ => none) (Response.default.addHeader ['A'] ['b']) ['x']).2.body
      = "404 Not Found".toList ∧
    (Response.sendFile (fun _ => none) (Response.default.addHeader ['A'] ['b']) ['x']).2.headers
      = (Response.default.addHeader ['A'] ['b']).headers :=
  ⟨rfl, sendFile_unopenable (fun _ => none) (Response.default.addHeader ['A'] ['b']) ['x'] rfl⟩

/-- C8: when the path opens with content `c`, `sendFile` returns true, the body is `c`,
`Content-Length` is the decimal length of `c`, and the status code and message are the ones
from before the call. -/
theorem sendFile_opened (fs : FileSystem) (r : Response) (filePath content : Str)
    (h : fs filePath = some content) :
    (Response.sendFile fs r filePath).1 = true ∧
    (Response.sendFile fs r filePath).2.body = content ∧
    (Response.sendFile fs r filePath).2.headers.get? "Content-Length".toList
      = some (decimal content.length) ∧
    (Response.sendFile fs r filePath).2.statusCode = r.statusCode ∧
    (Response.sendFile fs r filePath).2.statusMessage = r.statusMessage := by
  rw [sendFile_of_some fs r filePath content h]
  exact ⟨rfl, rfl, HeaderMap.get?_assign_same _ _ _, rfl, rfl⟩

theorem sendFile_opened_witness :
    (fun p => if p = "a.bin".toList then some "hello world".toList else none : FileSystem)
      "a.bin".toList = some "hello world".toList ∧
    (Response.sendFile (fun p => if p = "a.bin".toList then some "hello world".toList else none)
      (Response.default.setStatusCode 500) "a.bin".toList).1 = true ∧
    (Response.sendFile (fun p => if p = "a.bin".toList then some "hello world".toList else none)
      (Response.default.setStatusCode 500) "a.bin".toList).2.body = "hello world".toList ∧
    (Response.sendFile (fun p => if p = "a.bin".toList then some "hello world".toList else none)
      (Response.default.setStatusCode 500) "a.bin".toList).2.headers.get? "Content-Length".toList
      = some (decimal "hello world".toList.length) ∧
    (Response.sendFile (fun p => if p = "a.bin".toList then some "hello world".toList else none)
      (Response.default.setStatusCode 500) "a.bin".toList).2.statusCode
      = (Response.default.setStatusCode 500).statusCode ∧
    (Response.sendFile (fun p => if p = "a.bin".toList then some "hello world".toList else none)
      (Response.default.setStatusCode 500) "a.bin".toList).2.statusMessage
      = (Response.default.setStatusCode 500).statusMessage :=
  ⟨by decide,
    sendFile_opened (fun p => if p = "a.bin".toList then some "hello world".toList else none)
      (Response.default.setStatusCode 500) "a.bin".toList "hello world".toList (by decide)⟩

/-- C9: when the path opens, the `Content-Type` header is chosen by a case-sensitive test of
the end of the whole path against the nine suffixes, and is `application/octet-stream` exactly
when none of them matches, as for `foo.PNG`. -/
theorem sendFile_contentType (fs : FileSystem) (r : Response) (filePath content : Str)
    (h : fs filePath = some content) :
    ((Response.sendFile fs r filePath).2.headers.get? "Content-Type".toList
        = some "text/html".toList ↔
      (ends_with filePath ".html".toList = true ∨ ends_with filePath ".htm".toList = true)) ∧
    ((Response.sendFile fs r filePath).2.headers.get? "Content-Type".toList
        = some "text/css".toList ↔ ends_with filePath ".css".toList = true) ∧
    ((Response.sendFile fs r filePath).2.headers.get? "Content-Type".toList
        = some "text/plain".toList ↔
      (ends_with filePath ".js".toList = true ∨ ends_with filePath ".txt".toList = true)) ∧
    ((Response.sendFile fs r filePath).2.headers.get? "Content-Type".toList
        = some "image/png".toList ↔ ends_with filePath ".png".toList = true) ∧
    ((Response.sendFile fs r filePath).2.headers.get? "Content-Type".toList
        = some "image/jpeg".toList ↔
      (ends_with filePath ".jpg".toList = true ∨ ends_with filePath ".jpeg".toList = true)) ∧
    ((Response.sendFile fs r filePath).2.headers.get? "Content-Type".toList
        = some "image/gif".toList ↔ ends_with filePath ".gif".toList = true) ∧
    ((Response.sendFile fs r filePath).2.headers.get? "Content-Type".toList
        = some "application/octet-stream".toList ↔
      ∀ s ∈ [".html".toList, ".htm".toList, ".css".toList, ".js".toList, ".png".toList,
          ".jpg".toList, ".jpeg".toList, ".gif".toList, ".txt".toList],
        ends_with filePath s = false) ∧
    (filePath = "foo.PNG".toList →
      (Response.sendFile fs r filePath).2.headers.get? "Content-Type".toList
        = some "application/octet-stream".toList) := by
  have hct : (Response.sendFile fs r filePath).2.headers.get? "Content-Type".toList
      = some (Response.contentTypeOf filePath) := by
    rw [sendFile_of_some fs r filePath content h]
    simp only [Response.addHeader, Response.setBody]
    rw [HeaderMap.get?_assign_other _ _ _ _ (by decide), HeaderMap.get?_assign_same]
  rw [hct]
  simp only [Option.some.injEq]
  obtain ⟨t1, t2, t3, t4, t5, t6, t7⟩ := contentTypeOf_table filePath
  refine ⟨t1, t2, t3, t4, t5, t6, t7, ?_⟩
  intro hp
  subst hp
  decide

theorem sendFile_contentType_witness :
    (fun _ => some ['x'] : FileSystem) "foo.PNG".toList = some ['x'] ∧
    (((Response.sendFile (fun _ => some ['x']) Response.default "foo.PNG".toList).2.headers.get?
          "Content-Type".toList = some "text/html".toList ↔
      (ends_with "foo.PNG".toList ".html".toList = true ∨
        ends_with "foo.PNG".toList ".htm".toList = true)) ∧
    ((Response.sendFile (fun _ => some ['x']) Response.default "foo.PNG".toList).2.headers.get?
          "Content-Type".toList = some "text/css".toList ↔
      ends_with "foo.PNG".toList ".css".toList = true) ∧
    ((Response.sendFile (fun _ => some ['x']) Response.default "foo.PNG".toList).2.headers.get?
          "Content-Type".toList = some "text/plain".toList ↔
      (ends_with "foo.PNG".toList ".js".toList = true ∨
        ends_with "foo.PNG".toList ".txt".toList = true)) ∧
    ((Response.sendFile (fun _ => some ['x']) Response.default "foo.PNG".toList).2.headers.get?
          "Content-Type".toList = some "image/png".toList ↔
      ends_with "foo.PNG".toList ".png".toList = true) ∧
    ((Response.sendFile (fun _ => some ['x']) Response.default "foo.PNG".toList).2.headers.get?
          "Content-Type".toList = some "image/jpeg".toList ↔
      (ends_with "foo.PNG".toList ".jpg".toList = true ∨
        ends_with "foo.PNG".toList ".jpeg".toList = true)) ∧
    ((Response.sendFile (fun _ => some ['x']) Response.default "foo.PNG".toList).2.headers.get?
          "Content-Type".toList = some "image/gif".toList ↔
      ends_with "foo.PNG".toList ".gif".toList = true) ∧
    ((Response.sendFile (fun _ => some ['x']) Response.default "foo.PNG".toList).2.headers.get?
          "Content-Type".toList = some "application/octet-stream".toList ↔
      ∀ s ∈ [".html".toList, ".htm".toList, ".css".toList, ".js".toList, ".png".toList,
          ".jpg".toList, ".jpeg".toList, ".gif".toList, ".txt".toList],
        ends_with "foo.PNG".toList s = false) ∧
    ("foo.PNG".toList = "foo.PNG".toList →
      (Response.sendFile (fun _ => some ['x']) Response.default "foo.PNG".toList).2.headers.get?
          "Content-Type".toList = some "application/octet-stream".toList)) :=
  ⟨rfl, sendFile_contentType (fun _ => some ['x']) Response.default "foo.PNG".toList ['x'] rfl⟩

/-- C10: the output of `toString` is the status line, one line `name: value` per entry of the
header map in enumeration order, an empty line, and the body with nothing after it. -/
theorem toString_layout (r : Response) :
    r.toString =
      "HTTP/1.1 ".toList ++ decimalInt r.statusCode ++ [' '] ++ r.statusMessage ++ ['\r', '\n']
        ++ (r.headers.entries.map fun e => e.1 ++ [':', ' '] ++ e.2 ++ ['\r', '\n']).flatten
        ++ ['\r', '\n'] ++ r.body ∧
    (r.headers.entries.map Prod.fst).Nodup := by
  refine ⟨?_, r.headers.nodup⟩
  have fold : ∀ (es : List (Str × Str)) (acc : Str),
      es.foldl (fun os header => put (put (put (put os header.1) [':', ' ']) header.2) ['\r', '\n'])
          acc
        = acc ++ (es.map fun e => e.1 ++ [':', ' '] ++ e.2 ++ ['\r', '\n']).flatten := by
    intro es
    induction es with
    | nil => intro acc; simp
    | cons e es ih =>
      intro acc
      rw [List.foldl_cons, ih]
      simp [put, List.append_assoc]
  rw [Response.toString, fold]
  simp [put, List.append_assoc]

/-- C12: in every state reachable from the constructor through `setStatusCode`, `addHeader`,
`setBody` and `sendFile`, the status message is the phrase the table gives for the status
code; the constructor starts at 200 with "OK". -/
theorem statusMessage_in_sync (r : Response) (h : Response.Reachable r) :
    r.statusMessage = Response.getStatusMessage r.statusCode ∧
    Response.default.statusCode = 200 ∧ Response.default.statusMessage = "OK".toList :=
  ⟨reachable_statusMessage r h, rfl, rfl⟩

theorem statusMessage_in_sync_witness :
    Response.Reachable
      (Response.sendFile (fun _ => none)
        ((Response.default.setStatusCode 500).addHeader ['A'] ['b']) ['x']).2 ∧
    ((Response.sendFile (fun _ => none)
        ((Response.default.setStatusCode 500).addHeader ['A'] ['b']) ['x']).2.statusMessage
      = Response.getStatusMessage
          (Response.sendFile (fun _ => none)
            ((Response.default.setStatusCode 500).addHeader ['A'] ['b']) ['x']).2.statusCode ∧
    Response.default.statusCode = 200 ∧ Response.default.statusMessage = "OK".toList) :=
  ⟨Response.Reachable.sendFile _ _ _
      (Response.Reachable.addHeader _ _ _
        (Response.Reachable.setStatusCode _ _ Response.Reachable.init)),
    statusMessage_in_sync _
      (Response.Reachable.sendFile _ (fun _ => none) ['x']
        (Response.Reachable.addHeader _ ['A'] ['b']
          (Response.Reachable.setStatusCode _ 500 Response.Reachable.init)))⟩

/-- C13: `setStatusCode` stores any code as it is; 404 gives "Not Found", and a code outside
the table, such as 999, 0, 306, any negative code and any code above 511, gives
"Unknown Status". -/
theorem setStatusCode_table (r : Response) (code : Int) :
    (r.setStatusCode code).statusCode = code ∧
    (r.setStatusCode 404).statusMessage = "Not Found".toList ∧
    (code ∉ statusTableCodes → (r.setStatusCode code).statusMessage = "Unknown Status".toList) ∧
    (r.setStatusCode 999).statusMessage = "Unknown Status".toList ∧
    (r.setStatusCode 0).statusMessage = "Unknown Status".toList ∧
    (r.setStatusCode 306).statusMessage = "Unknown Status".toList ∧
    (code < 0 → (r.setStatusCode code).statusMessage = "Unknown Status".toList) ∧
    (511 < code → (r.setStatusCode code).statusMessage = "Unknown Status".toList) := by
  have h404 : Response.getStatusMessage 404 = "Not Found".toList := by decide
  have h999 : Response.getStatusMessage 999 = "Unknown Status".toList := by decide
  have h0 : Response.getStatusMessage 0 = "Unknown Status".toList := by decide
  have h306 : Response.getStatusMessage 306 = "Unknown Status".toList := by decide
  refine ⟨rfl, h404, fun h => getStatusMessage_unknown code h, h999, h0, h306,
    fun h => getStatusMessage_unknown code ?_, fun h => getStatusMessage_unknown code ?_⟩
  · simp only [statusTableCodes, List.mem_cons, List.mem_singleton, List.not_mem_nil, or_false]
    omega
  · simp only [statusTableCodes, List.mem_cons, List.mem_singleton, List.not_mem_nil, or_false]
    omega

/-- C11, as stated, fails: after `addHeader("X", "a\r\n\r\nb")` the part of the output before
the body holds the sequence CR LF CR LF twice. -/
theorem separator_twice :
    Response.Reachable (Response.default.addHeader ['X'] "a\r\n\r\nb".toList) ∧
    countOccurrences CRLFCRLF (Response.default.addHeader ['X'] "a\r\n\r\nb".toList).beforeBody
      = 2 :=
  ⟨Response.Reachable.addHeader _ _ _ Response.Reachable.init, by decide⟩

/-- C11, amended: in a reachable state whose header names and values hold no carriage
return, the output of `toString` is its part before the body followed by the body, and that
part holds the sequence CR LF CR LF exactly once, as its last four bytes. -/
theorem separator_once (r : Response) (h : Response.Reachable r)
    (hcr : ∀ e ∈ r.headers.entries, '\r' ∉ e.1 ∧ '\r' ∉ e.2) :
    r.toString = r.beforeBody ++ r.body ∧
    countOccurrences CRLFCRLF r.beforeBody = 1 ∧
    CRLFCRLF <:+ r.beforeBody := by
  refine ⟨?_, ?_, ?_⟩
  · rw [beforeBody_eq]; exact toString_eq r
  · rw [beforeBody_lines]
    refine count_lines _ (by simp) ?_
    intro l hl
    simp only [List.mem_cons, List.mem_map] at hl
    rcases hl with rfl | ⟨e, he, rfl⟩
    · refine ⟨by simp, ?_⟩
      have h1 := decimalInt_no_cr r.statusCode
      have h2 := getStatusMessage_no_cr r.statusCode
      rw [← reachable_statusMessage r h] at h2
      have h3 : '\r' ∉ "HTTP/1.1 ".toList := by decide
      simp only [List.mem_append, not_or, List.mem_singleton]
      exact ⟨⟨⟨h3, h1⟩, by decide⟩, h2⟩
    · obtain ⟨k1, k2⟩ := hcr e he
      refine ⟨by simp, ?_⟩
      simp only [List.mem_append, not_or, List.mem_cons, List.not_mem_nil, or_false]
      exact ⟨⟨k1, by decide, by decide⟩, k2⟩
  · rw [beforeBody_lines]
    exact suffix_lines _ (by simp)

theorem separator_once_witness :
    Response.Reachable
      (Response.sendFile (fun _ => some "<p>\r\n\r\n</p>".toList)
        (Response.default.addHeader "Server".toList "x y".toList) "/a.html".toList).2 ∧
    (∀ e ∈ (Response.sendFile (fun _ => some "<p>\r\n\r\n</p>".toList)
        (Response.default.addHeader "Server".toList "x y".toList)
          "/a.html".toList).2.headers.entries,
      '\r' ∉ e.1 ∧ '\r' ∉ e.2) ∧
    ((Response.sendFile (fun _ => some "<p>\r\n\r\n</p>".toList)
        (Response.default.addHeader "Server".toList "x y".toList) "/a.html".toList).2.toString
      = (Response.sendFile (fun _ => some "<p>\r\n\r\n</p>".toList)
          (Response.default.addHeader "Server".toList "x y".toList) "/a.html".toList).2.beforeBody
        ++ (Response.sendFile (fun _ => some "<p>\r\n\r\n</p>".toList)
          (Response.default.addHeader "Server".toList "x y".toList) "/a.html".toList).2.body ∧
    countOccurrences CRLFCRLF
      (Response.sendFile (fun _ => some "<p>\r\n\r\n</p>".toList)
        (Response.default.addHeader "Server".toList "x y".toList) "/a.html".toList).2.beforeBody
      = 1 ∧
    CRLFCRLF <:+
      (Response.sendFile (fun _ => some "<p>\r\n\r\n</p>".toList)
        (Response.default.addHeader "Server".toList "x y".toList)
          "/a.html".toList).2.beforeBody) :=
  ⟨Response.Reachable.sendFile _ _ _ (Response.Reachable.addHeader _ _ _ Response.Reachable.init),
    by decide,
    separator_once _
      (Response.Reachable.sendFile _ (fun _ => some "<p>\r\n\r\n</p>".toList) "/a.html".toList
        (Response.Reachable.addHeader _ "Server".toList "x y".toList Response.Reachable.init))
      (by decide)⟩

/-! ## The connection handler -/

/-- C14: when the path made of the document root followed by the parsed URI opens with
content `c`, the response has status 200 "OK", body `c`, `Content-Length` the decimal length of
`c` and `Content-Type` the entry of the suffix table for that path; for the request
`GET /index.html HTTP/1.1`, `Host: x` and a file of 11 bytes that is status 200, `text/html`
and length `11`. -/
theorem handleRequest_found (serverRoot : Str) (fs : FileSystem) (garbage : METHOD)
    (rawRequest : Str) (hlen : rawRequest.length < SIZE_MOD) :
    (∃ request response,
      Request.ofRaw garbage rawRequest = .ok request ∧
      Server.handleRequest serverRoot fs garbage rawRequest = .ok response ∧
      ∀ c, fs (serverRoot ++ request.uri) = some c →
        response.statusCode = 200 ∧ response.statusMessage = "OK".toList ∧
        response.body = c ∧
        response.headers.get? "Content-Length".toList = some (decimal c.length) ∧
        response.headers.get? "Content-Type".toList
          = some (Response.contentTypeOf (serverRoot ++ request.uri))) ∧
    (∀ c, fs (serverRoot ++ "/index.html".toList) = some c → c.length = 11 →
      ∃ response,
        Server.handleRequest serverRoot fs garbage
          "GET /index.html HTTP/1.1\r\nHost: x\r\n\r\n".toList = .ok response ∧
        response.statusCode = 200 ∧ response.body = c ∧
        response.headers.get? "Content-Type".toList = some "text/html".toList ∧
        response.headers.get? "Content-Length".toList = some "11".toList) := by
  constructor
  · obtain ⟨e1, e2, _⟩ := handleRequest_eq serverRoot fs garbage rawRequest hlen
    refine ⟨_, _, e1, e2, fun c hc => ?_⟩
    rw [buildResponse_of_some serverRoot fs _ c hc]
    refine ⟨rfl, rfl, rfl, HeaderMap.get?_assign_same _ _ _, ?_⟩
    rw [HeaderMap.get?_assign_other _ _ _ _ (by decide), HeaderMap.get?_assign_same]
  · intro c hc h11
    have e : Request.ofRaw garbage "GET /index.html HTTP/1.1\r\nHost: x\r\n\r\n".toList
        = .ok ⟨.GET, "/index.html".toList, HeaderMap.empty.assign "Host".toList ['x', '\r'], []⟩ :=
      rfl
    have hsuf : ends_with (serverRoot ++ "/index.html".toList) ".html".toList = true :=
      (ends_with_iff _ _).2 ⟨serverRoot ++ "/index".toList, by simp⟩
    have hct : Response.contentTypeOf (serverRoot ++ "/index.html".toList) = "text/html".toList :=
      (contentTypeOf_table _).1.2 (Or.inl hsuf)
    have e2 : Server.handleRequest serverRoot fs garbage
          "GET /index.html HTTP/1.1\r\nHost: x\r\n\r\n".toList
        = .ok (Server.buildResponse serverRoot fs
            ⟨.GET, "/index.html".toList, HeaderMap.empty.assign "Host".toList ['x', '\r'], []⟩) := by
      simp only [Server.handleRequest, e, bind, Except.bind, pure, Except.pure]
    refine ⟨_, e2, ?_⟩
    rw [buildResponse_of_some serverRoot fs _ c hc]
    refine ⟨rfl, rfl, ?_, ?_⟩
    · rw [HeaderMap.get?_assign_other _ _ _ _ (by decide), HeaderMap.get?_assign_same]
      exact congrArg some hct
    · rw [HeaderMap.get?_assign_same, h11]
      decide

theorem handleRequest_found_witness :
    "GET /index.html HTTP/1.1\r\nHost: x\r\n\r\n".toList.length < SIZE_MOD ∧
    ((∃ request response,
      Request.ofRaw .UNKNOWN "GET /index.html HTTP/1.1\r\nHost: x\r\n\r\n".toList = .ok request ∧
      Server.handleRequest "/var/www/html".toList
          (fun p => if p = "/var/www/html/index.html".toList then some "hello world".toList
            else none)
          .UNKNOWN "GET /index.html HTTP/1.1\r\nHost: x\r\n\r\n".toList = .ok response ∧
      ∀ c, (fun p => if p = "/var/www/html/index.html".toList then some "hello world".toList
            else none : FileSystem) ("/var/www/html".toList ++ request.uri) = some c →
        response.statusCode = 200 ∧ response.statusMessage = "OK".toList ∧
        response.body = c ∧
        response.headers.get? "Content-Length".toList = some (decimal c.length) ∧
        response.headers.get? "Content-Type".toList
          = some (Response.contentTypeOf ("/var/www/html".toList ++ request.uri))) ∧
    (∀ c, (fun p => if p = "/var/www/html/index.html".toList then some "hello world".toList
            else none : FileSystem) ("/var/www/html".toList ++ "/index.html".toList) = some c →
        c.length = 11 →
      ∃ response,
        Server.handleRequest "/var/www/html".toList
          (fun p => if p = "/var/www/html/index.html".toList then some "hello world".toList
            else none)
          .UNKNOWN "GET /index.html HTTP/1.1\r\nHost: x\r\n\r\n".toList = .ok response ∧
        response.statusCode = 200 ∧ response.body = c ∧
        response.headers.get? "Content-Type".toList = some "text/html".toList ∧
        response.headers.get? "Content-Length".toList = some "11".toList)) :=
  ⟨by decide,
    handleRequest_found "/var/www/html".toList
      (fun p => if p = "/var/www/html/index.html".toList then some "hello world".toList else none)
      .UNKNOWN "GET /index.html HTTP/1.1\r\nHost: x\r\n\r\n".toList (by decide)⟩

/-- C15: when the path made of the document root followed by the parsed URI does not open,
the response has status 404, body "404 Not Found" and no header, and the bytes passed to
`send` are `HTTP/1.1 404 Not Found`, an empty line and `404 Not Found`. -/
theorem handleRequest_missing (serverRoot : Str) (fs : FileSystem) (garbage : METHOD)
    (rawRequest : Str) (hlen : rawRequest.length < SIZE_MOD) :
    ∃ request response,
      Request.ofRaw garbage rawRequest = .ok request ∧
      Server.handleRequest serverRoot fs garbage rawRequest = .ok response ∧
      (fs (serverRoot ++ request.uri) = none →
        response.statusCode = 404 ∧ response.body = "404 Not Found".toList ∧
        response.headers.entries = [] ∧
        Server.responseBytes serverRoot fs garbage rawRequest
          = .ok "HTTP/1.1 404 Not Found\r\n\r\n404 Not Found".toList) := by
  obtain ⟨e1, e2, e3⟩ := handleRequest_eq serverRoot fs garbage rawRequest hlen
  refine ⟨_, _, e1, e2, fun hc => ?_⟩
  rw [e3, buildResponse_of_none serverRoot fs _ hc]
  exact ⟨rfl, rfl, rfl, rfl⟩

theorem handleRequest_missing_witness :
    "GET /missing.txt HTTP/1.1\r\n\r\n".toList.length < SIZE_MOD ∧
    ∃ request response,
      Request.ofRaw .UNKNOWN "GET /missing.txt HTTP/1.1\r\n\r\n".toList = .ok request ∧
      Server.handleRequest "/var/www/html".toList (fun _ => none) .UNKNOWN
        "GET /missing.txt HTTP/1.1\r\n\r\n".toList = .ok response ∧
      ((fun _ => none : FileSystem) ("/var/www/html".toList ++ request.uri) = none →
        response.statusCode = 404 ∧ response.body = "404 Not Found".toList ∧
        response.headers.entries = [] ∧
        Server.responseBytes "/var/www/html".toList (fun _ => none) .UNKNOWN
            "GET /missing.txt HTTP/1.1\r\n\r\n".toList
          = .ok "HTTP/1.1 404 Not Found\r\n\r\n404 Not Found".toList) :=
  ⟨by decide,
    handleRequest_missing "/var/www/html".toList (fun _ => none) .UNKNOWN
      "GET /missing.txt HTTP/1.1\r\n\r\n".toList (by decide)⟩

/-- C16: two raw requests with the same parsed URI get the same bytes from the same document
root and files, whatever the rest of the requests is; `BOGUS / HTTP/1.1` parses to method
`UNKNOWN` and URI `/` and is answered like `GET / HTTP/1.1`. -/
theorem response_depends_on_uri (serverRoot : Str) (fs : FileSystem) (g1 g2 : METHOD)
    (raw1 raw2 : Str) (h1 : raw1.length < SIZE_MOD) (h2 : raw2.length < SIZE_MOD) :
    (∃ q1 q2 bytes1 bytes2,
      Request.ofRaw g1 raw1 = .ok q1 ∧ Request.ofRaw g2 raw2 = .ok q2 ∧
      Server.responseBytes serverRoot fs g1 raw1 = .ok bytes1 ∧
      Server.responseBytes serverRoot fs g2 raw2 = .ok bytes2 ∧
      (q1.uri = q2.uri → bytes1 = bytes2)) ∧
    (∃ q, Request.ofRaw g1 "BOGUS / HTTP/1.1\r\n\r\n".toList = .ok q ∧
      q.method = .UNKNOWN ∧ q.uri = ['/']) ∧
    Server.responseBytes serverRoot fs g1 "BOGUS / HTTP/1.1\r\n\r\n".toList
      = Server.responseBytes serverRoot fs g2 "GET / HTTP/1.1\r\n\r\n".toList := by
  obtain ⟨a1, _, a3⟩ := handleRequest_eq serverRoot fs g1 raw1 h1
  obtain ⟨b1, _, b3⟩ := handleRequest_eq serverRoot fs g2 raw2 h2
  refine ⟨⟨_, _, _, _, a1, b1, a3, b3, fun h => ?_⟩, ⟨_, rfl, rfl, rfl⟩, ?_⟩
  · rw [buildResponse_congr serverRoot fs _ _ h]
  · obtain ⟨_, _, c3⟩ := handleRequest_eq serverRoot fs g1 "BOGUS / HTTP/1.1\r\n\r\n".toList
      (by decide)
    obtain ⟨_, _, d3⟩ := handleRequest_eq serverRoot fs g2 "GET / HTTP/1.1\r\n\r\n".toList
      (by decide)
    have hu : (parseSpec (Request.uninitialized g1) "BOGUS / HTTP/1.1\r\n\r\n".toList).uri
        = (parseSpec (Request.uninitialized g2) "GET / HTTP/1.1\r\n\r\n".toList).uri := rfl
    rw [c3, d3, buildResponse_congr serverRoot fs _ _ hu]

theorem response_depends_on_uri_witness :
    ("BOGUS /a.css HTTP/1.1\r\nX: y\r\n\r\nbody".toList.length < SIZE_MOD ∧
      "GET /a.css HTTP/1.0\r\n\r\n".toList.length < SIZE_MOD) ∧
    ((∃ q1 q2 bytes1 bytes2,
      Request.ofRaw .PUT "BOGUS /a.css HTTP/1.1\r\nX: y\r\n\r\nbody".toList = .ok q1 ∧
      Request.ofRaw .UNKNOWN "GET /a.css HTTP/1.0\r\n\r\n".toList = .ok q2 ∧
      Server.responseBytes "/srv".toList
          (fun p => if p = "/srv/a.css".toList then some "p {}".toList else none) .PUT
          "BOGUS /a.css HTTP/1.1\r\nX: y\r\n\r\nbody".toList = .ok bytes1 ∧
      Server.responseBytes "/srv".toList
          (fun p => if p = "/srv/a.css".toList then some "p {}".toList else none) .UNKNOWN
          "GET /a.css HTTP/1.0\r\n\r\n".toList = .ok bytes2 ∧
      (q1.uri = q2.uri → bytes1 = bytes2)) ∧
    (∃ q, Request.ofRaw .PUT "BOGUS / HTTP/1.1\r\n\r\n".toList = .ok q ∧
      q.method = .UNKNOWN ∧ q.uri = ['/']) ∧
    Server.responseBytes "/srv".toList
        (fun p => if p = "/srv/a.css".toList then some "p {}".toList else none) .PUT
        "BOGUS / HTTP/1.1\r\n\r\n".toList
      = Server.responseBytes "/srv".toList
          (fun p => if p = "/srv/a.css".toList then some "p {}".toList else none) .UNKNOWN
          "GET / HTTP/1.1\r\n\r\n".toList) :=
  ⟨⟨by decide, by decide⟩,
    response_depends_on_uri "/srv".toList
      (fun p => if p = "/srv/a.css".toList then some "p {}".toList else none) .PUT .UNKNOWN
      "BOGUS /a.css HTTP/1.1\r\nX: y\r\n\r\nbody".toList "GET /a.css HTTP/1.0\r\n\r\n".toList
      (by decide) (by decide)⟩

/-! ## Header lines -/

/-- C17: among the lines between the first line and the line `"\r"`, the value the header
map holds for a name is the one given by the last line with exactly that name; a name that
differs in letter case is another key. -/
theorem parse_duplicate_headers (r : Request) (first : Str) (pre : List Str) (l : Str)
    (post : List Str) (rest : Str)
    (hfirst : '\n' ∉ first)
    (hh : ∀ h ∈ pre ++ l :: post, '\n' ∉ h ∧ h ≠ ['\r'])
    (hl : ':' ∈ l)
    (hpost : ∀ p ∈ post, ':' ∈ p →
      p.takeWhile (fun c => c != ':') ≠ l.takeWhile (fun c => c != ':'))
    (hlen : (first ++ ['\n'] ++ ((pre ++ l :: post).map (fun h => h ++ ['\n'])).flatten
      ++ ['\r', '\n'] ++ rest).length < SIZE_MOD) :
    (∃ q, Request.parse r (first ++ ['\n']
          ++ ((pre ++ l :: post).map (fun h => h ++ ['\n'])).flatten ++ ['\r', '\n'] ++ rest)
        = .ok q ∧
      q.headers.get? (l.takeWhile (fun c => c != ':'))
        = some (trimBlanks (l.dropWhile (fun c => c != ':')).tail)) ∧
    (∃ q, Request.parse r
          "GET / HTTP/1.1\r\nHost: a\r\nhost: b\r\nHost: c\r\n\r\n".toList = .ok q ∧
      q.headers.get? "Host".toList = some ['c', '\r'] ∧
      q.headers.get? "host".toList = some ['b', '\r']) := by
  constructor
  · refine ⟨_, parse_eq_parseSpec r _ hlen, ?_⟩
    rw [parseSpec_headers r first _ rest hfirst hh]
    exact get?_foldl_headerStep_last _ pre l post hl hpost
  · refine ⟨_, parse_eq_parseSpec r _ (by decide), ?_⟩
    have e : "GET / HTTP/1.1\r\nHost: a\r\nhost: b\r\nHost: c\r\n\r\n".toList
        = "GET / HTTP/1.1\r".toList ++ ['\n']
          ++ (["Host: a\r".toList, "host: b\r".toList, "Host: c\r".toList].map
              (fun h => h ++ ['\n'])).flatten ++ ['\r', '\n'] ++ [] := by decide
    rw [e, parseSpec_headers r _ _ _ (by decide) (by decide)]
    constructor
    · exact get?_foldl_headerStep_last r.headers ["Host: a\r".toList, "host: b\r".toList]
        "Host: c\r".toList [] (by decide) (by simp)
    · exact get?_foldl_headerStep_last r.headers ["Host: a\r".toList]
        "host: b\r".toList ["Host: c\r".toList] (by decide) (by decide)

theorem parse_duplicate_headers_witness :
    ('\n' ∉ "GET / HTTP/1.1\r".toList ∧
     (∀ h ∈ ["Host: a\r".toList, "X-Other: 1\r".toList] ++ "Host: c\r".toList
          :: ["host: b\r".toList, "nocolon\r".toList], '\n' ∉ h ∧ h ≠ ['\r']) ∧
     ':' ∈ "Host: c\r".toList ∧
     (∀ p ∈ ["host: b\r".toList, "nocolon\r".toList], ':' ∈ p →
        p.takeWhile (fun c => c != ':') ≠ "Host: c\r".toList.takeWhile (fun c => c != ':'))) ∧
    ((∃ q, Request.parse Request.default ("GET / HTTP/1.1\r".toList ++ ['\n']
          ++ ((["Host: a\r".toList, "X-Other: 1\r".toList] ++ "Host: c\r".toList
                :: ["host: b\r".toList, "nocolon\r".toList]).map (fun h => h ++ ['\n'])).flatten
          ++ ['\r', '\n'] ++ "body".toList)
        = .ok q ∧
      q.headers.get? ("Host: c\r".toList.takeWhile (fun c => c != ':'))
        = some (trimBlanks ("Host: c\r".toList.dropWhile (fun c => c != ':')).tail)) ∧
    (∃ q, Request.parse Request.default
          "GET / HTTP/1.1\r\nHost: a\r\nhost: b\r\nHost: c\r\n\r\n".toList = .ok q ∧
      q.headers.get? "Host".toList = some ['c', '\r'] ∧
      q.headers.get? "host".toList = some ['b', '\r'])) :=
  ⟨⟨by decide, by decide, by decide, by decide⟩,
    parse_duplicate_headers Request.default "GET / HTTP/1.1\r".toList
      ["Host: a\r".toList, "X-Other: 1\r".toList] "Host: c\r".toList
      ["host: b\r".toList, "nocolon\r".toList] "body".toList
      (by decide) (by decide) (by decide) (by decide) (by decide)⟩

/-- C18: the lines between the first line and the line `"\r"` are taken in order; a line with
a colon assigns, under the text before its first colon, the text after that colon without its
leading and trailing spaces and tabs, and a line without a colon changes nothing. -/
theorem parse_header_lines (r : Request) (first : Str) (hdrs : List Str) (rest : Str)
    (hfirst : '\n' ∉ first)
    (hh : ∀ h ∈ hdrs, '\n' ∉ h ∧ h ≠ ['\r'])
    (hlen : (first ++ ['\n'] ++ (hdrs.map (fun h => h ++ ['\n'])).flatten
      ++ ['\r', '\n'] ++ rest).length < SIZE_MOD) :
    ∃ q, Request.parse r (first ++ ['\n'] ++ (hdrs.map (fun h => h ++ ['\n'])).flatten
          ++ ['\r', '\n'] ++ rest) = .ok q ∧
      q.headers = hdrs.foldl
        (fun m line =>
          if ':' ∈ line then
            m.assign (line.takeWhile (fun c => c != ':'))
              (((line.dropWhile (fun c => c != ':')).tail.dropWhile
                (fun c => c = ' ' || c = '\t')).rdropWhile (fun c => c = ' ' || c = '\t'))
          else m)
        r.headers := by
  refine ⟨_, parse_eq_parseSpec r _ hlen, ?_⟩
  rw [parseSpec_headers r first hdrs rest hfirst hh]
  have hb : isBlank = fun c => (decide (c = ' ') || decide (c = '\t')) := by
    funext c
    simp [isBlank]
  have hs : headerStep = fun m line =>
      if ':' ∈ line then
        m.assign (line.takeWhile (fun c => c != ':'))
          (((line.dropWhile (fun c => c != ':')).tail.dropWhile
            (fun c => c = ' ' || c = '\t')).rdropWhile (fun c => c = ' ' || c = '\t'))
      else m := by
    funext m line
    simp only [headerStep, trimBlanks, hb]
  rw [hs]

theorem parse_header_lines_witness :
    ('\n' ∉ "GET / HTTP/1.1\r".toList ∧
     (∀ h ∈ [" Key :  a:b \t\r".toList, "nocolon\r".toList, ":\r".toList, "K:v \t".toList],
        '\n' ∉ h ∧ h ≠ ['\r'])) ∧
    ∃ q, Request.parse Request.default ("GET / HTTP/1.1\r".toList ++ ['\n']
          ++ ([" Key :  a:b \t\r".toList, "nocolon\r".toList, ":\r".toList, "K:v \t".toList].map
              (fun h => h ++ ['\n'])).flatten
          ++ ['\r', '\n'] ++ "body".toList) = .ok q ∧
      q.headers = [" Key :  a:b \t\r".toList, "nocolon\r".toList, ":\r".toList,
          "K:v \t".toList].foldl
        (fun m line =>
          if ':' ∈ line then
            m.assign (line.takeWhile (fun c => c != ':'))
              (((line.dropWhile (fun c => c != ':')).tail.dropWhile
                (fun c => c = ' ' || c = '\t')).rdropWhile (fun c => c = ' ' || c = '\t'))
          else m)
        Request.default.headers :=
  ⟨⟨by decide, by decide⟩,
    parse_header_lines Request.default "GET / HTTP/1.1\r".toList
      [" Key :  a:b \t\r".toList, "nocolon\r".toList, ":\r".toList, "K:v \t".toList]
      "body".toList (by decide) (by decide) (by decide)⟩

/-! ## Receiving the request -/

/-- C19: after a chunk `GET /a.txt HTTP/1.1` and a read that returns -1 the handler parses
the chunk all the same and passes a response, status 200 with the content of the file, to
`send`; when that call returns the socket is closed, and when it raises `SIGPIPE` the process
ends there, with no `close` and no further turn of the accept loop. -/
theorem read_error_still_answered :
    ∃ bytes,
      Server.handleClient "/srv".toList
          (fun p => if p = "/srv/a.txt".toList then some "hi".toList else none) .UNKNOWN
          [RecvResult.ofChunk "GET /a.txt HTTP/1.1\r\n".toList, ⟨-1, []⟩] (.returned 0)
        = .ok ⟨[SocketOp.send bytes, SocketOp.close], true⟩ ∧
      Server.handleClient "/srv".toList
          (fun p => if p = "/srv/a.txt".toList then some "hi".toList else none) .UNKNOWN
          [RecvResult.ofChunk "GET /a.txt HTTP/1.1\r\n".toList, ⟨-1, []⟩] .sigpipe
        = .ok ⟨[SocketOp.send bytes], false⟩ ∧
      Server.acceptLoop "/srv".toList
          (fun p => if p = "/srv/a.txt".toList then some "hi".toList else none)
          [⟨some [RecvResult.ofChunk "GET /a.txt HTTP/1.1\r\n".toList, ⟨-1, []⟩], .sigpipe,
              .UNKNOWN⟩,
            ⟨some [RecvResult.ofChunk "GET /a.txt HTTP/1.1\r\n\r\n".toList], .returned 0,
              .UNKNOWN⟩]
        = .ok ([[SocketOp.send bytes]], false) ∧
      "HTTP/1.1 200 OK\r\n".toList <+: bytes ∧ "\r\n\r\nhi".toList <:+ bytes :=
  ⟨_, rfl, rfl, rfl, by decide, by decide⟩

/-- C21: on an input without a carriage return no line ends the header block: every line
after the first goes through the header loop, so each one that holds a colon leaves its name
in the header map, also after an empty line, and the body stays empty. -/
theorem parse_without_cr (r : Request) (first : Str) (lines : List Str) (last : Str)
    (hbody : r.body = [])
    (hfirst : '\n' ∉ first ∧ '\r' ∉ first)
    (hlines : ∀ l ∈ lines, '\n' ∉ l ∧ '\r' ∉ l)
    (hlast : '\n' ∉ last ∧ '\r' ∉ last)
    (hlen : (first ++ ['\n'] ++ (lines.map (fun l => l ++ ['\n'])).flatten ++ last).length
      < SIZE_MOD) :
    (∃ q, Request.parse r (first ++ ['\n'] ++ (lines.map (fun l => l ++ ['\n'])).flatten ++ last)
        = .ok q ∧
      q.body = [] ∧
      q.headers = (lines ++ (if last = [] then [] else [last])).foldl
        (fun m line =>
          if ':' ∈ line then
            m.assign (line.takeWhile (fun c => c != ':'))
              (((line.dropWhile (fun c => c != ':')).tail.dropWhile
                (fun c => c = ' ' || c = '\t')).rdropWhile (fun c => c = ' ' || c = '\t'))
          else m)
        r.headers ∧
      ∀ l ∈ lines ++ (if last = [] then [] else [last]), ':' ∈ l →
        (q.headers.get? (l.takeWhile (fun c => c != ':'))).isSome = true) ∧
    (first.length < SIZE_MOD →
      ∃ q, Request.parse r first = .ok q ∧ q.body = [] ∧ q.headers = r.headers) ∧
    (∃ q, Request.parse r "POST /f HTTP/1.1\nHost: x\n\nname: value\nhello".toList = .ok q ∧
      q.body = [] ∧
      q.headers.get? "Host".toList = some ['x'] ∧
      q.headers.get? "name".toList = some "value".toList) := by
  refine ⟨⟨_, parse_eq_parseSpec r _ hlen, ?_⟩, fun h1 => ⟨_, parse_eq_parseSpec r _ h1, ?_⟩,
    ⟨_, parse_eq_parseSpec r _ (by decide), ?_⟩⟩
  · obtain ⟨e1, e2⟩ := parseSpec_no_terminator r first lines last hfirst.1 hlines hlast
    rw [e1, e2, hbody, ← headerStep_eq]
    exact ⟨rfl, rfl, fun l hl hc => isSome_get?_of_mem _ _ l hl hc⟩
  · obtain ⟨e1, e2⟩ := parseSpec_single_line r first hfirst.1
    rw [e1, e2, hbody]
    exact ⟨rfl, rfl⟩
  · have e : "POST /f HTTP/1.1\nHost: x\n\nname: value\nhello".toList
        = "POST /f HTTP/1.1".toList ++ ['\n']
          ++ (["Host: x".toList, [], "name: value".toList].map (fun l => l ++ ['\n'])).flatten
          ++ "hello".toList := by decide
    rw [e]
    obtain ⟨e1, e2⟩ := parseSpec_no_terminator r "POST /f HTTP/1.1".toList
      ["Host: x".toList, [], "name: value".toList] "hello".toList (by decide) (by decide)
      (by decide)
    rw [e1, e2, hbody]
    refine ⟨rfl, ?_, ?_⟩
    · exact get?_foldl_headerStep_last r.headers [] "Host: x".toList
        [[], "name: value".toList, "hello".toList] (by decide) (by decide)
    · exact get?_foldl_headerStep_last r.headers ["Host: x".toList, []] "name: value".toList
        ["hello".toList] (by decide) (by decide)

theorem parse_without_cr_witness :
    (Request.default.body = [] ∧
     ('\n' ∉ "GET / HTTP/1.1".toList ∧ '\r' ∉ "GET / HTTP/1.1".toList) ∧
     (∀ l ∈ ["Host: x".toList, [], "a: b".toList, "plain".toList], '\n' ∉ l ∧ '\r' ∉ l) ∧
     ('\n' ∉ "c:d".toList ∧ '\r' ∉ "c:d".toList)) ∧
    ((∃ q, Request.parse Request.default ("GET / HTTP/1.1".toList ++ ['\n']
          ++ (["Host: x".toList, [], "a: b".toList, "plain".toList].map
              (fun l => l ++ ['\n'])).flatten ++ "c:d".toList)
        = .ok q ∧
      q.body = [] ∧
      q.headers = (["Host: x".toList, [], "a: b".toList, "plain".toList]
          ++ (if "c:d".toList = [] then [] else ["c:d".toList])).foldl
        (fun m line =>
          if ':' ∈ line then
            m.assign (line.takeWhile (fun c => c != ':'))
              (((line.dropWhile (fun c => c != ':')).tail.dropWhile
                (fun c => c = ' ' || c = '\t')).rdropWhile (fun c => c = ' ' || c = '\t'))
          else m)
        Request.default.headers ∧
      ∀ l ∈ ["Host: x".toList, [], "a: b".toList, "plain".toList]
          ++ (if "c:d".toList = [] then [] else ["c:d".toList]), ':' ∈ l →
        (q.headers.get? (l.takeWhile (fun c => c != ':'))).isSome = true) ∧
    ("GET / HTTP/1.1".toList.length < SIZE_MOD →
      ∃ q, Request.parse Request.default "GET / HTTP/1.1".toList = .ok q ∧ q.body = [] ∧
        q.headers = Request.default.headers) ∧
    (∃ q, Request.parse Request.default
          "POST /f HTTP/1.1\nHost: x\n\nname: value\nhello".toList = .ok q ∧
      q.body = [] ∧
      q.headers.get? "Host".toList = some ['x'] ∧
      q.headers.get? "name".toList = some "value".toList)) :=
  ⟨⟨rfl, by decide, by decide, by decide⟩,
    parse_without_cr Request.default "GET / HTTP/1.1".toList
      ["Host: x".toList, [], "a: b".toList, "plain".toList] "c:d".toList
      rfl (by decide) (by decide) (by decide) (by decide)⟩

end WebServer
